import Mathlib

/-!
Verification of the Snapshot Analytics & Dual-Backend Persistence Engine of
the portfolio-vision repository.

The TypeScript source is embedded shallowly:

* Entity records (`Portfolio`, `Wallet`, `DailySnapshot`, `MonthlySnapshot`,
  `Goal`, `JournalEntry`) become Lean structures; JavaScript numbers are
  modelled as exact rationals (`ℚ`), since every claim under study concerns
  comparisons, selections and exact algebraic identities, not float rounding.
* The Dexie (IndexedDB) tables of `services/db.ts` are modelled as lists of
  records; `Table.add` (which rejects a duplicate primary key) returns
  `Option`, `Table.put` replaces the row with the same `id` in place (or
  appends), `Table.update` merges changed fields into the row with the given
  `id` and returns the updated row count.
* JavaScript string comparison (`<=`, `localeCompare` on ISO dates) is
  modelled by lexicographic comparison of the character lists (`charsLt`);
  on the "YYYY-MM-DD" strings manipulated by the source this is exactly the
  JS code-unit order.
* The wall-clock date arithmetic `new Date(d); setDate(getDate() - days);
  toISOString()` of `calculations.ts` is modelled by exact proleptic-Gregorian
  calendar subtraction (`jsDateSubDays`), which is what that JS incantation
  computes for well-formed ISO inputs.
-/

/-! ## Character-list string primitives

All string processing is done on `List Char` (converting with `String.toList`
/ `String.mk` at the boundaries) so that every definition evaluates by kernel
reduction. -/

/-- Lexicographic strict order on character lists: the order JavaScript uses
for `<`/`>`/`localeCompare` on the ASCII strings handled by the source. -/
def charsLt : List Char → List Char → Bool
  | [], [] => false
  | [], _ :: _ => true
  | _ :: _, [] => false
  | a :: as, b :: bs => if a < b then true else if b < a then false else charsLt as bs

/-- JS string `a < b`. -/
def strLt (a b : String) : Bool := charsLt a.toList b.toList

/-- JS string `a <= b`. -/
def strLe (a b : String) : Bool := !charsLt b.toList a.toList

theorem charsLt_irrefl : ∀ l : List Char, charsLt l l = false := by
  intro l
  induction l with
  | nil => rfl
  | cons a as ih => simp [charsLt, ih]

theorem charsLt_asymm : ∀ {a b : List Char}, charsLt a b = true → charsLt b a = false := by
  intro a
  induction a with
  | nil => intro b h; cases b with
    | nil => simp [charsLt] at h
    | cons c cs => simp [charsLt]
  | cons x xs ih =>
    intro b h
    cases b with
    | nil => simp [charsLt] at h
    | cons y ys =>
      simp only [charsLt] at h ⊢
      rcases lt_trichotomy x y with hlt | heq | hgt
      · simp [hlt, not_lt_of_gt hlt]
      · subst heq
        simp only [lt_irrefl, if_false] at h ⊢
        exact ih h
      · simp [hgt, not_lt_of_gt hgt] at h

theorem charsLt_connex : ∀ {a b : List Char},
    charsLt a b = false → charsLt b a = false → a = b := by
  intro a
  induction a with
  | nil => intro b h₁ _; cases b with
    | nil => rfl
    | cons c cs => simp [charsLt] at h₁
  | cons x xs ih =>
    intro b h₁ h₂
    cases b with
    | nil => simp [charsLt] at h₂
    | cons y ys =>
      simp only [charsLt] at h₁ h₂
      rcases lt_trichotomy x y with hlt | heq | hgt
      · simp [hlt] at h₁
      · subst heq
        simp only [lt_irrefl, if_false] at h₁ h₂
        exact congrArg (x :: ·) (ih h₁ h₂)
      · simp [hgt] at h₂

theorem charsLt_trans : ∀ {a b c : List Char},
    charsLt a b = true → charsLt b c = true → charsLt a c = true := by
  intro a
  induction a with
  | nil =>
    intro b c hab hbc
    cases b with
    | nil => simp [charsLt] at hab
    | cons y ys =>
      cases c with
      | nil => simp [charsLt] at hbc
      | cons z zs => simp [charsLt]
  | cons x xs ih =>
    intro b c hab hbc
    cases b with
    | nil => simp [charsLt] at hab
    | cons y ys =>
      cases c with
      | nil => simp [charsLt] at hbc
      | cons z zs =>
        simp only [charsLt] at hab hbc ⊢
        rcases lt_trichotomy x y with hxy | hxy | hxy
        · rcases lt_trichotomy y z with hyz | hyz | hyz
          · simp [lt_trans hxy hyz]
          · subst hyz; simp [hxy]
          · simp [hyz, not_lt_of_gt hyz] at hbc
        · subst hxy
          rcases lt_trichotomy x z with hyz | hyz | hyz
          · simp [hyz]
          · subst hyz
            simp only [lt_irrefl, if_false] at hab hbc ⊢
            exact ih hab hbc
          · simp [hyz, not_lt_of_gt hyz] at hbc
        · simp [hxy, not_lt_of_gt hxy] at hab

theorem string_ext : ∀ {a b : String}, a.toList = b.toList → a = b := by
  intro a b h
  cases a; cases b
  simp only [String.toList] at h
  exact congrArg String.mk h

theorem strLe_refl (a : String) : strLe a a = true := by
  simp [strLe, charsLt_irrefl]

theorem strLe_total (a b : String) : strLe a b = true ∨ strLe b a = true := by
  by_cases h : charsLt b.toList a.toList = true
  · right
    simp only [strLe, Bool.not_eq_true', charsLt_asymm h]
  · left
    simp only [strLe, Bool.not_eq_true']
    exact Bool.not_eq_true _ ▸ h

theorem strLe_antisymm {a b : String} (h₁ : strLe a b = true) (h₂ : strLe b a = true) :
    a = b := by
  simp only [strLe, Bool.not_eq_true'] at h₁ h₂
  exact string_ext (charsLt_connex h₂ h₁)

theorem strLe_trans {a b c : String} (h₁ : strLe a b = true) (h₂ : strLe b c = true) :
    strLe a c = true := by
  simp only [strLe, Bool.not_eq_true'] at h₁ h₂ ⊢
  by_contra hca
  simp only [Bool.not_eq_false] at hca
  cases hbc : charsLt b.toList c.toList with
  | true =>
    have hba := charsLt_trans hbc hca
    rw [h₁] at hba
    exact Bool.false_ne_true hba
  | false =>
    have hbceq : b.toList = c.toList := charsLt_connex hbc h₂
    rw [← hbceq] at hca
    rw [h₁] at hca
    exact Bool.false_ne_true hca

theorem strLt_eq_not_strLe (a b : String) : strLt a b = !strLe b a := by
  simp [strLt, strLe]

theorem strLe_of_strLt {a b : String} (h : strLt a b = true) : strLe a b = true := by
  simp only [strLt] at h
  simp only [strLe, Bool.not_eq_true', charsLt_asymm h]

theorem strLt_of_strLe_of_ne {a b : String} (h : strLe a b = true) (hne : a ≠ b) :
    strLt a b = true := by
  simp only [strLe, Bool.not_eq_true'] at h
  simp only [strLt]
  by_contra hab
  simp only [Bool.not_eq_true] at hab
  exact hne (string_ext (charsLt_connex hab h))

/-! ## Calendar arithmetic

`calculations.ts` computes "the date `days` days before the latest snapshot"
with `const t = new Date(latestDate); t.setDate(t.getDate() - days);
t.toISOString().split('T')[0]`.  For a well-formed ISO input this JavaScript
sequence performs exact proleptic-Gregorian calendar subtraction; it is
modelled here by converting to a day count and back (Gregorian civil-date
algorithms restricted to the years ≥ 1 actually handled by the app). -/

/-- Day count of a Gregorian civil date (years ≥ 1). -/
def daysFromCivil (y m d : Nat) : Nat :=
  let y2 := if m ≤ 2 then y - 1 else y
  let era := y2 / 400
  let yoe := y2 % 400
  let mp := (m + 9) % 12
  let doy := (153 * mp + 2) / 5 + d - 1
  let doe := yoe * 365 + yoe / 4 - yoe / 100 + doy
  era * 146097 + doe

/-- Inverse of `daysFromCivil`: civil date `(y, m, d)` of a day count. -/
def civilFromDays (z : Nat) : Nat × Nat × Nat :=
  let era := z / 146097
  let doe := z % 146097
  let yoe := (doe - doe / 1460 + doe / 36524 - doe / 146096) / 365
  let y := yoe + era * 400
  let doy := doe - (365 * yoe + yoe / 4 - yoe / 100)
  let mp := (5 * doy + 2) / 153
  let d := doy - (153 * mp + 2) / 5 + 1
  let m := if mp < 10 then mp + 3 else mp - 9
  (if m ≤ 2 then y + 1 else y, m, d)

/-- Digit characters of a natural number (most significant first), with
explicit structural fuel so that the definition evaluates by kernel
reduction; `natDigits n` uses fuel `n + 1`, which is always enough. -/
def natDigitsAux : Nat → Nat → List Char
  | 0, _ => []
  | fuel + 1, n =>
    if n = 0 then [] else natDigitsAux fuel (n / 10) ++ [Char.ofNat (48 + n % 10)]

/-- Left-pad with `'0'` to the given width, as the pieces of an ISO date. -/
def natToPadded (width n : Nat) : List Char :=
  let ds := if n = 0 then ['0'] else natDigitsAux (n + 1) n
  List.replicate (width - ds.length) '0' ++ ds

/-- Value of a digit character list (used to read the pieces of an ISO date). -/
def digitsToNat (l : List Char) : Nat :=
  l.foldl (fun acc c => acc * 10 + (c.toNat - 48)) 0

/-- Does the character list consist of digits only (and is non-empty)? -/
def allDigits (l : List Char) : Bool := !l.isEmpty && l.all (·.isDigit)

/-- Parse a well-formed "YYYY-MM-DD" character list into `(y, m, d)`. -/
def parseIsoChars : List Char → Option (Nat × Nat × Nat)
  | [y1, y2, y3, y4, '-', m1, m2, '-', d1, d2] =>
    if allDigits [y1, y2, y3, y4] && allDigits [m1, m2] && allDigits [d1, d2] then
      some (digitsToNat [y1, y2, y3, y4], digitsToNat [m1, m2], digitsToNat [d1, d2])
    else none
  | _ => none

/-- Render a civil date as "YYYY-MM-DD". -/
def formatIso (y m d : Nat) : String :=
  String.mk (natToPadded 4 y ++ '-' :: natToPadded 2 m ++ '-' :: natToPadded 2 d)

/-- The JS `new Date(s); setDate(getDate() - days); toISOString().slice(0,10)`
idiom of `calculations.ts` on a well-formed ISO date: exact calendar
subtraction of `days` days.  (On a malformed date string the JS source throws
a `RangeError` from `toISOString`; that case is modelled as `""` and is never
reached by the claims, which deal with well-formed dates.) -/
def jsDateSubDays (s : String) (days : Nat) : String :=
  match parseIsoChars s.toList with
  | none => ""
  | some (y, m, d) =>
    let (y2, m2, d2) := civilFromDays (daysFromCivil y m d - days)
    formatIso y2 m2 d2

example : jsDateSubDays "2024-03-05" 7 = "2024-02-27" := by decide
example : jsDateSubDays "2024-03-01" 1 = "2024-02-29" := by decide
example : jsDateSubDays "2023-03-01" 1 = "2023-02-28" := by decide
example : jsDateSubDays "2024-01-03" 7 = "2023-12-27" := by decide
example : jsDateSubDays "2024-01-31" 30 = "2024-01-01" := by decide

/-! ## Data model (`src/types.ts`) -/

/-- `Portfolio` of `types.ts` (`createdAt : Date` modelled as its ISO string). -/
structure Portfolio where
  id : String
  name : String
  createdAt : String
  color : String
deriving DecidableEq, Repr

/-- `Wallet` of `types.ts`. -/
structure Wallet where
  id : String
  portfolioId : String
  name : String
  address : Option String
  chain : Option String
  color : String
deriving DecidableEq, Repr

/-- `WalletBalance` of `types.ts`. -/
structure WalletBalance where
  walletId : String
  valueUsd : ℚ
deriving DecidableEq, Repr

/-- `DailySnapshot` of `types.ts`; `date` is a "YYYY-MM-DD" string. -/
structure DailySnapshot where
  id : String
  portfolioId : String
  date : String
  walletBalances : List WalletBalance
  totalUsd : ℚ
  variationPercent : ℚ
  variationUsd : ℚ
deriving DecidableEq, Repr

/-- `MonthlySnapshot` of `types.ts`; `month` is a "YYYY-MM" string. -/
structure MonthlySnapshot where
  id : String
  portfolioId : String
  month : String
  year : Nat
  totalUsd : ℚ
  deltaUsd : ℚ
  deltaPercent : ℚ
  btcPrice : ℚ
  ethPrice : ℚ
  customRefPrice : Option ℚ
deriving DecidableEq, Repr

/-- `Goal` of `types.ts` (`currentValue` is a UI-computed transient and is
not persisted, so it is omitted from the stored record). -/
structure Goal where
  id : String
  portfolioId : String
  name : String
  targetValue : ℚ
  deadline : Option String
  createdAt : String
  completedAt : Option String
  color : String
  icon : Option String
deriving DecidableEq, Repr

/-- `JournalEntry` of `types.ts` (`mood` kept as its literal string). -/
structure JournalEntry where
  id : String
  portfolioId : String
  date : String
  title : String
  content : String
  mood : Option String
  tags : Option (List String)
  createdAt : String
  updatedAt : Option String
deriving DecidableEq, Repr

/-! ## The local Dexie store (`services/db.ts`, schema version 2)

A Dexie `Table` is modelled as a list of records; `id` is the primary key.
`Table.add` rejects a duplicate primary key (modelled by `Option`);
`Table.put` replaces the row carrying the same `id` in place, appending when
none exists; `Table.update` merges the changed fields into the row with the
given `id` and returns the number of updated rows (`1` or `0`). -/

/-- `db.dailySnapshots.add snap` — fails (`none`) on a duplicate `id`. -/
def dexieAddDaily (t : List DailySnapshot) (snap : DailySnapshot) :
    Option (List DailySnapshot) :=
  if t.any (fun r => r.id = snap.id) then none else some (t ++ [snap])

/-- `db.dailySnapshots.put snap` — replace by primary key, else append. -/
def dexiePutDaily (t : List DailySnapshot) (snap : DailySnapshot) :
    List DailySnapshot :=
  if t.any (fun r => r.id = snap.id) then
    t.map (fun r => if r.id = snap.id then snap else r)
  else t ++ [snap]

/-- `db.monthlySnapshots.add snap`. -/
def dexieAddMonthly (t : List MonthlySnapshot) (snap : MonthlySnapshot) :
    Option (List MonthlySnapshot) :=
  if t.any (fun r => r.id = snap.id) then none else some (t ++ [snap])

/-- `db.monthlySnapshots.put snap`. -/
def dexiePutMonthly (t : List MonthlySnapshot) (snap : MonthlySnapshot) :
    List MonthlySnapshot :=
  if t.any (fun r => r.id = snap.id) then
    t.map (fun r => if r.id = snap.id then snap else r)
  else t ++ [snap]

/-- `snapshotService.getDailySnapshotByDate` — first row matching the
`[portfolioId+date]` natural key. -/
def getDailySnapshotByDate (t : List DailySnapshot) (portfolioId date : String) :
    Option DailySnapshot :=
  t.find? (fun r => decide (r.portfolioId = portfolioId ∧ r.date = date))

/-- `snapshotService.createDailySnapshot` (the daily upsert): if a row exists
for `(portfolioId, date)`, `put` the new field values under the existing
row's `id` and return that `id`; otherwise `add` and return the new `id`.
The result pairs the updated table with the returned id. -/
def createDailySnapshot (t : List DailySnapshot) (snap : DailySnapshot) :
    Option (List DailySnapshot × String) :=
  match getDailySnapshotByDate t snap.portfolioId snap.date with
  | some existing => some (dexiePutDaily t { snap with id := existing.id }, existing.id)
  | none => (dexieAddDaily t snap).map (fun t2 => (t2, snap.id))

/-- `snapshotService.createMonthlySnapshot` (the monthly upsert), keyed on
`[portfolioId+month]`. -/
def createMonthlySnapshot (t : List MonthlySnapshot) (snap : MonthlySnapshot) :
    Option (List MonthlySnapshot × String) :=
  match t.find? (fun r => decide (r.portfolioId = snap.portfolioId ∧ r.month = snap.month)) with
  | some existing => some (dexiePutMonthly t { snap with id := existing.id }, existing.id)
  | none => (dexieAddMonthly t snap).map (fun t2 => (t2, snap.id))

/-- `Partial<DailySnapshot>` for `Table.update`. -/
structure DailySnapshotPatch where
  portfolioId : Option String := none
  date : Option String := none
  walletBalances : Option (List WalletBalance) := none
  totalUsd : Option ℚ := none
  variationPercent : Option ℚ := none
  variationUsd : Option ℚ := none
deriving Repr

/-- Merge a partial update into a daily snapshot (Dexie `update` semantics:
only the supplied fields change, the primary key stays). -/
def applyDailyPatch (r : DailySnapshot) (p : DailySnapshotPatch) : DailySnapshot :=
  { r with
    portfolioId := p.portfolioId.getD r.portfolioId
    date := p.date.getD r.date
    walletBalances := p.walletBalances.getD r.walletBalances
    totalUsd := p.totalUsd.getD r.totalUsd
    variationPercent := p.variationPercent.getD r.variationPercent
    variationUsd := p.variationUsd.getD r.variationUsd }

/-- `snapshotService.updateDailySnapshot` — a blind `Table.update` by `id`;
returns the table and the updated-row count (`1` when the id exists). -/
def updateDailySnapshot (t : List DailySnapshot) (id : String)
    (changes : DailySnapshotPatch) : List DailySnapshot × Nat :=
  if t.any (fun r => r.id = id) then
    (t.map (fun r => if r.id = id then applyDailyPatch r changes else r), 1)
  else (t, 0)

/-- `Partial<MonthlySnapshot>` for `Table.update`. -/
structure MonthlySnapshotPatch where
  portfolioId : Option String := none
  month : Option String := none
  year : Option Nat := none
  totalUsd : Option ℚ := none
  deltaUsd : Option ℚ := none
  deltaPercent : Option ℚ := none
  btcPrice : Option ℚ := none
  ethPrice : Option ℚ := none
deriving Repr

/-- Merge a partial update into a monthly snapshot. -/
def applyMonthlyPatch (r : MonthlySnapshot) (p : MonthlySnapshotPatch) : MonthlySnapshot :=
  { r with
    portfolioId := p.portfolioId.getD r.portfolioId
    month := p.month.getD r.month
    year := p.year.getD r.year
    totalUsd := p.totalUsd.getD r.totalUsd
    deltaUsd := p.deltaUsd.getD r.deltaUsd
    deltaPercent := p.deltaPercent.getD r.deltaPercent
    btcPrice := p.btcPrice.getD r.btcPrice
    ethPrice := p.ethPrice.getD r.ethPrice }

/-- `snapshotService.updateMonthlySnapshot` — blind `Table.update` by `id`. -/
def updateMonthlySnapshot (t : List MonthlySnapshot) (id : String)
    (changes : MonthlySnapshotPatch) : List MonthlySnapshot × Nat :=
  if t.any (fun r => r.id = id) then
    (t.map (fun r => if r.id = id then applyMonthlyPatch r changes else r), 1)
  else (t, 0)

/-- The whole local database (schema version 2 of `PortfolioDatabase`). -/
structure PortfolioDB where
  portfolios : List Portfolio
  wallets : List Wallet
  dailySnapshots : List DailySnapshot
  monthlySnapshots : List MonthlySnapshot
  goals : List Goal
  journalEntries : List JournalEntry
deriving Repr

/-- `portfolioService.delete` of `services/db.ts`: inside one transaction,
delete the wallets, daily snapshots and monthly snapshots whose
`portfolioId` equals `id`, then the portfolio row itself.  (The transaction
body touches no other table.) -/
def portfolioServiceDelete (db : PortfolioDB) (id : String) : PortfolioDB :=
  { db with
    wallets := db.wallets.filter (fun w => !decide (w.portfolioId = id))
    dailySnapshots := db.dailySnapshots.filter (fun s => !decide (s.portfolioId = id))
    monthlySnapshots := db.monthlySnapshots.filter (fun s => !decide (s.portfolioId = id))
    portfolios := db.portfolios.filter (fun p => !decide (p.id = id)) }

/-- `goalService.markCompleted` of `services/db.ts`:
`db.goals.update(id, { completedAt: new Date().toISOString() })` — an
unconditional `Table.update` of `completedAt` to the current timestamp
(passed here explicitly as `now`). -/
def markCompleted (t : List Goal) (id now : String) : List Goal × Nat :=
  if t.any (fun g => g.id = id) then
    (t.map (fun g => if g.id = id then { g with completedAt := some now } else g), 1)
  else (t, 0)

/-- The slice of the in-memory zustand state touched by
`appStore.deletePortfolio` (the `set` callback). -/
structure AppStateSlice where
  portfolios : List Portfolio
  wallets : List Wallet
  snapshots : List DailySnapshot
  monthlySnapshots : List MonthlySnapshot
  goals : List Goal
  journalEntries : List JournalEntry
  activePortfolioId : Option String
deriving Repr

/-- The state update performed by `appStore.deletePortfolio` after the
backend delete: it filters every portfolio-scoped collection — including
`goals` and `journalEntries` — by `portfolioId !== id`. -/
def appStoreDeletePortfolio (st : AppStateSlice) (id : String) : AppStateSlice :=
  let newPortfolios := st.portfolios.filter (fun p => !decide (p.id = id))
  { st with
    portfolios := newPortfolios
    wallets := st.wallets.filter (fun w => !decide (w.portfolioId = id))
    snapshots := st.snapshots.filter (fun s => !decide (s.portfolioId = id))
    monthlySnapshots := st.monthlySnapshots.filter (fun s => !decide (s.portfolioId = id))
    goals := st.goals.filter (fun g => !decide (g.portfolioId = id))
    journalEntries := st.journalEntries.filter (fun e => !decide (e.portfolioId = id))
    activePortfolioId :=
      if st.activePortfolioId = some id then newPortfolios.head?.map (fun p => p.id)
      else st.activePortfolioId }

/-! ## Helper list lemmas -/

theorem find?_append_of_none {α : Type} (p : α → Bool) {l₁ : List α} (l₂ : List α)
    (h : l₁.find? p = none) : (l₁ ++ l₂).find? p = l₂.find? p := by
  induction l₁ with
  | nil => rfl
  | cons a as ih =>
    simp only [List.find?_cons] at h ⊢
    cases hpa : p a with
    | true => rw [hpa] at h; simp at h
    | false =>
      rw [hpa] at h
      simp only [List.cons_append, List.find?_cons, hpa]
      exact ih h

/-! ## Claim C1 — upsert keeps the first id and the second call's values -/

/-- C1: calling the daily upsert twice with the same `(portfolioId, date)`
key but different field values leaves exactly one stored row for that key,
carrying the second call's field values under the id created by the first
call, and the second call returns that first id; the monthly upsert behaves
the same keyed on `(portfolioId, month)`. -/
theorem claim_C1_upsert_keeps_first_id
    (t : List DailySnapshot) (snap1 snap2 : DailySnapshot)
    (h1 : ∀ r ∈ t, ¬(r.portfolioId = snap1.portfolioId ∧ r.date = snap1.date))
    (h2 : ∀ r ∈ t, r.id ≠ snap1.id)
    (hp : snap2.portfolioId = snap1.portfolioId) (hd : snap2.date = snap1.date)
    (u : List MonthlySnapshot) (m1 m2 : MonthlySnapshot)
    (g1 : ∀ r ∈ u, ¬(r.portfolioId = m1.portfolioId ∧ r.month = m1.month))
    (g2 : ∀ r ∈ u, r.id ≠ m1.id)
    (gp : m2.portfolioId = m1.portfolioId) (gm : m2.month = m1.month) :
    createDailySnapshot t snap1 = some (t ++ [snap1], snap1.id) ∧
    createDailySnapshot (t ++ [snap1]) snap2 =
      some (t ++ [{ snap2 with id := snap1.id }], snap1.id) ∧
    (t ++ [{ snap2 with id := snap1.id }]).filter
        (fun r => decide (r.portfolioId = snap1.portfolioId ∧ r.date = snap1.date)) =
      [{ snap2 with id := snap1.id }] ∧
    createMonthlySnapshot u m1 = some (u ++ [m1], m1.id) ∧
    createMonthlySnapshot (u ++ [m1]) m2 =
      some (u ++ [{ m2 with id := m1.id }], m1.id) ∧
    (u ++ [{ m2 with id := m1.id }]).filter
        (fun r => decide (r.portfolioId = m1.portfolioId ∧ r.month = m1.month)) =
      [{ m2 with id := m1.id }] := by
  have hfindD : ∀ P D, (P = snap1.portfolioId ∧ D = snap1.date) →
      t.find? (fun r => decide (r.portfolioId = P ∧ r.date = D)) = none := by
    intro P D hPD
    rw [List.find?_eq_none]
    intro r hr
    simp only [decide_eq_true_eq, hPD.1, hPD.2]
    exact h1 r hr
  have hanyD : t.any (fun r => r.id = snap1.id) = false := by
    rw [List.any_eq_false]
    intro r hr
    simp only [decide_eq_true_eq]
    exact h2 r hr
  have hfindM : ∀ P M, (P = m1.portfolioId ∧ M = m1.month) →
      u.find? (fun r => decide (r.portfolioId = P ∧ r.month = M)) = none := by
    intro P M hPM
    rw [List.find?_eq_none]
    intro r hr
    simp only [decide_eq_true_eq, hPM.1, hPM.2]
    exact g1 r hr
  have hanyM : u.any (fun r => r.id = m1.id) = false := by
    rw [List.any_eq_false]
    intro r hr
    simp only [decide_eq_true_eq]
    exact g2 r hr
  refine ⟨?_, ?_, ?_, ?_, ?_, ?_⟩
  · rw [createDailySnapshot, getDailySnapshotByDate, hfindD _ _ ⟨rfl, rfl⟩,
      dexieAddDaily, hanyD]
    rfl
  · rw [createDailySnapshot, getDailySnapshotByDate,
      find?_append_of_none _ _ (hfindD _ _ ⟨hp, hd⟩)]
    have hone : [snap1].find?
        (fun r => decide (r.portfolioId = snap2.portfolioId ∧ r.date = snap2.date)) =
        some snap1 := by
      simp [List.find?, hp, hd]
    rw [hone]
    simp only [dexiePutDaily]
    have hany2 : (t ++ [snap1]).any (fun r => r.id = snap1.id) = true := by
      simp [List.any_append]
    rw [hany2, if_pos rfl, List.map_append]
    have hmapt : t.map (fun r => if r.id = snap1.id then { snap2 with id := snap1.id } else r)
        = t := by
      rw [List.map_congr_left (fun r hr => by simp [h2 r hr] :
        ∀ r ∈ t, (if r.id = snap1.id then { snap2 with id := snap1.id } else r) = id r)]
      exact List.map_id t
    rw [hmapt]
    simp
  · rw [List.filter_append]
    have : t.filter (fun r => decide (r.portfolioId = snap1.portfolioId ∧ r.date = snap1.date)) = [] := by
      rw [List.filter_eq_nil_iff]
      intro r hr
      simp only [decide_eq_true_eq]
      exact h1 r hr
    rw [this]
    simp [hp, hd]
  · rw [createMonthlySnapshot, hfindM _ _ ⟨rfl, rfl⟩, dexieAddMonthly, hanyM]
    rfl
  · rw [createMonthlySnapshot, find?_append_of_none _ _ (hfindM _ _ ⟨gp, gm⟩)]
    have hone : [m1].find?
        (fun r => decide (r.portfolioId = m2.portfolioId ∧ r.month = m2.month)) =
        some m1 := by
      simp [List.find?, gp, gm]
    rw [hone]
    simp only [dexiePutMonthly]
    have hany2 : (u ++ [m1]).any (fun r => r.id = m1.id) = true := by
      simp [List.any_append]
    rw [hany2, if_pos rfl, List.map_append]
    have hmapt : u.map (fun r => if r.id = m1.id then { m2 with id := m1.id } else r)
        = u := by
      rw [List.map_congr_left (fun r hr => by simp [g2 r hr] :
        ∀ r ∈ u, (if r.id = m1.id then { m2 with id := m1.id } else r) = id r)]
      exact List.map_id u
    rw [hmapt]
    simp
  · rw [List.filter_append]
    have : u.filter (fun r => decide (r.portfolioId = m1.portfolioId ∧ r.month = m1.month)) = [] := by
      rw [List.filter_eq_nil_iff]
      intro r hr
      simp only [decide_eq_true_eq]
      exact g1 r hr
    rw [this]
    simp [gp, gm]

/-- Sample rows used by the concrete witnesses below. -/
def sampleDaily0 : DailySnapshot := ⟨"d0", "p1", "2024-01-01", [], 500, 0, 0⟩

def sampleDaily1 : DailySnapshot := ⟨"d1", "p1", "2024-01-02", [⟨"w1", 1000⟩], 1000, 0, 0⟩

def sampleDaily2 : DailySnapshot := ⟨"d2", "p1", "2024-01-02", [⟨"w1", 1100⟩], 1100, 10, 100⟩

def sampleMonthly0 : MonthlySnapshot := ⟨"m0", "p1", "2023-12", 2023, 900, 0, 0, 40000, 2200, none⟩

def sampleMonthly1 : MonthlySnapshot := ⟨"m1", "p1", "2024-01", 2024, 1000, 100, 10, 42000, 2500, none⟩

def sampleMonthly2 : MonthlySnapshot := ⟨"m2", "p1", "2024-01", 2024, 1200, 300, 30, 43000, 2600, none⟩

/-- Witness for C1 at concrete inputs: one unrelated pre-existing row, two
upserts for the same key; the second call returns the first call's id. -/
theorem claim_C1_upsert_keeps_first_id_witness :
    (∀ r ∈ [sampleDaily0], ¬(r.portfolioId = sampleDaily1.portfolioId ∧ r.date = sampleDaily1.date)) ∧
    (∀ r ∈ [sampleDaily0], r.id ≠ sampleDaily1.id) ∧
    sampleDaily2.portfolioId = sampleDaily1.portfolioId ∧
    sampleDaily2.date = sampleDaily1.date ∧
    (∀ r ∈ [sampleMonthly0], ¬(r.portfolioId = sampleMonthly1.portfolioId ∧ r.month = sampleMonthly1.month)) ∧
    (∀ r ∈ [sampleMonthly0], r.id ≠ sampleMonthly1.id) ∧
    sampleMonthly2.portfolioId = sampleMonthly1.portfolioId ∧
    sampleMonthly2.month = sampleMonthly1.month ∧
    createDailySnapshot ([sampleDaily0] ++ [sampleDaily1]) sampleDaily2 =
      some ([sampleDaily0] ++ [{ sampleDaily2 with id := sampleDaily1.id }], sampleDaily1.id) ∧
    createMonthlySnapshot ([sampleMonthly0] ++ [sampleMonthly1]) sampleMonthly2 =
      some ([sampleMonthly0] ++ [{ sampleMonthly2 with id := sampleMonthly1.id }], sampleMonthly1.id) :=
  ⟨by decide, by decide, by decide, by decide, by decide, by decide, by decide, by decide,
    (claim_C1_upsert_keeps_first_id [sampleDaily0] sampleDaily1 sampleDaily2
      (by decide) (by decide) (by decide) (by decide)
      [sampleMonthly0] sampleMonthly1 sampleMonthly2
      (by decide) (by decide) (by decide) (by decide)).2.1,
    (claim_C1_upsert_keeps_first_id [sampleDaily0] sampleDaily1 sampleDaily2
      (by decide) (by decide) (by decide) (by decide)
      [sampleMonthly0] sampleMonthly1 sampleMonthly2
      (by decide) (by decide) (by decide) (by decide)).2.2.2.2.1⟩

/-! ## Claim C2 — cascade delete of a portfolio -/

/-- Concrete database with one portfolio `"p1"` owning one row of each kind. -/
def c2Portfolio : Portfolio := ⟨"p1", "Main", "2024-01-01T00:00:00.000Z", "#3b82f6"⟩

def c2Wallet : Wallet := ⟨"w1", "p1", "Cold", none, none, "#3b82f6"⟩

def c2Daily : DailySnapshot := ⟨"d1", "p1", "2024-01-02", [⟨"w1", 1000⟩], 1000, 0, 0⟩

def c2Monthly : MonthlySnapshot := ⟨"m1", "p1", "2024-01", 2024, 1000, 0, 0, 42000, 2500, none⟩

def c2Goal : Goal := ⟨"g1", "p1", "100k", 100000, none, "2024-01-01T00:00:00.000Z", none, "#a855f7", none⟩

def c2Journal : JournalEntry :=
  ⟨"j1", "p1", "2024-01-02", "note", "text", some "bullish", none, "2024-01-02T00:00:00.000Z", none⟩

def c2DB : PortfolioDB := ⟨[c2Portfolio], [c2Wallet], [c2Daily], [c2Monthly], [c2Goal], [c2Journal]⟩

def c2State : AppStateSlice :=
  ⟨[c2Portfolio], [c2Wallet], [c2Daily], [c2Monthly], [c2Goal], [c2Journal], some "p1"⟩

/-- C2: the local `portfolioService.delete` removes the portfolio, its
wallets and both snapshot kinds, but leaves the Goal and the Journal Entry
scoped to the deleted portfolio in the persistent store — even though the
in-memory `appStore.deletePortfolio` state update (and the remote backend's
`ON DELETE CASCADE` schema) do remove them, so the persistent cascade is
incomplete. -/
theorem claim_C2_local_cascade_misses_goals_and_journal :
    (portfolioServiceDelete c2DB "p1").portfolios = [] ∧
    (portfolioServiceDelete c2DB "p1").wallets = [] ∧
    (portfolioServiceDelete c2DB "p1").dailySnapshots = [] ∧
    (portfolioServiceDelete c2DB "p1").monthlySnapshots = [] ∧
    (portfolioServiceDelete c2DB "p1").goals = [c2Goal] ∧
    (portfolioServiceDelete c2DB "p1").journalEntries = [c2Journal] ∧
    c2Goal.portfolioId = "p1" ∧
    c2Journal.portfolioId = "p1" ∧
    (appStoreDeletePortfolio c2State "p1").goals = [] ∧
    (appStoreDeletePortfolio c2State "p1").journalEntries = [] := by
  decide

/-! ## Claim C6 — completing an already-completed goal -/

/-- A goal already completed on 2024-01-01. -/
def c6Goal : Goal :=
  ⟨"g1", "p1", "100k", 100000, none, "2023-12-01T00:00:00.000Z",
    some "2024-01-01T00:00:00.000Z", "#a855f7", none⟩

/-- C6 counterexample: completing the already-completed `c6Goal` at a later
timestamp overwrites `completedAt` with the new timestamp instead of keeping
the original one. -/
theorem claim_C6_counterexample :
    markCompleted [c6Goal] "g1" "2024-06-01T12:00:00.000Z" =
      ([{ c6Goal with completedAt := some "2024-06-01T12:00:00.000Z" }], 1) ∧
    c6Goal.completedAt = some "2024-01-01T00:00:00.000Z" ∧
    (some "2024-06-01T12:00:00.000Z" : Option String) ≠ c6Goal.completedAt := by
  decide

/-- C6 amended: `completeGoal` on an existing goal never raises an error
(the update reports one changed row), but it is not idempotent — it
unconditionally sets `completedAt` to the current timestamp, overwriting any
earlier completion timestamp. -/
theorem claim_C6_amended (t : List Goal) (id now : String)
    (h : t.any (fun g => g.id = id) = true) :
    (markCompleted t id now).2 = 1 ∧
    ∀ g ∈ (markCompleted t id now).1, g.id = id → g.completedAt = some now := by
  unfold markCompleted
  rw [if_pos h]
  refine ⟨rfl, ?_⟩
  intro g hg hgid
  rcases List.mem_map.mp hg with ⟨r, _, hr⟩
  by_cases hrid : r.id = id
  · rw [if_pos hrid] at hr
    rw [← hr]
  · rw [if_neg hrid] at hr
    rw [← hr] at hgid
    exact absurd hgid hrid

/-- Witness for the amended C6 at the concrete already-completed goal. -/
theorem claim_C6_amended_witness :
    ([c6Goal].any (fun g => g.id = "g1") = true) ∧
    ((markCompleted [c6Goal] "g1" "2024-06-01T12:00:00.000Z").2 = 1 ∧
      ∀ g ∈ (markCompleted [c6Goal] "g1" "2024-06-01T12:00:00.000Z").1,
        g.id = "g1" → g.completedAt = some "2024-06-01T12:00:00.000Z") :=
  ⟨by decide, claim_C6_amended [c6Goal] "g1" "2024-06-01T12:00:00.000Z" (by decide)⟩

/-! ## Claim C7 — partial update onto a colliding natural key -/

def c7A : DailySnapshot := ⟨"a", "p1", "2024-01-01", [], 1000, 0, 0⟩

def c7B : DailySnapshot := ⟨"b", "p1", "2024-01-02", [], 1100, 10, 100⟩

def c7MA : MonthlySnapshot := ⟨"ma", "p1", "2024-01", 2024, 1000, 0, 0, 0, 0, none⟩

def c7MB : MonthlySnapshot := ⟨"mb", "p1", "2024-02", 2024, 1100, 100, 10, 0, 0, none⟩

/-- C7 counterexample: moving snapshot `"b"` onto the date of snapshot
`"a"` (same portfolio) succeeds — the update reports one changed row and
raises no conflict — and afterwards two distinct rows share the natural key
`("p1", "2024-01-01")`; the monthly update behaves the same on months. -/
theorem claim_C7_counterexample :
    updateDailySnapshot [c7A, c7B] "b" { date := some "2024-01-01" } =
      ([c7A, { c7B with date := "2024-01-01" }], 1) ∧
    (updateDailySnapshot [c7A, c7B] "b" { date := some "2024-01-01" }).1.countP
      (fun r => decide (r.portfolioId = "p1" ∧ r.date = "2024-01-01")) = 2 ∧
    updateMonthlySnapshot [c7MA, c7MB] "mb" { month := some "2024-01" } =
      ([c7MA, { c7MB with month := "2024-01" }], 1) ∧
    (updateMonthlySnapshot [c7MA, c7MB] "mb" { month := some "2024-01" }).1.countP
      (fun r => decide (r.portfolioId = "p1" ∧ r.month = "2024-01")) = 2 := by
  decide

/-- C7 amended: `updateDailySnapshot` / `updateMonthlySnapshot` perform a
blind partial update with no natural-key check: when the patch moves an
existing row's `date` (resp. `month`) onto the key of another row of the
same portfolio, the operation succeeds (row count 1, no Conflict error) and
the store is left with two distinct rows sharing one natural key. -/
theorem claim_C7_amended
    (t : List DailySnapshot) (id : String) (p : DailySnapshotPatch)
    (target other : DailySnapshot) (ht : target ∈ t) (hot : other ∈ t)
    (hid : target.id = id) (hoid : ¬ other.id = id)
    (hdate : p.date = some other.date) (hport : p.portfolioId = none)
    (hsame : target.portfolioId = other.portfolioId)
    (u : List MonthlySnapshot) (mid : String) (q : MonthlySnapshotPatch)
    (mtarget mother : MonthlySnapshot) (hmt : mtarget ∈ u) (hmo : mother ∈ u)
    (hmid : mtarget.id = mid) (hmoid : ¬ mother.id = mid)
    (hmonth : q.month = some mother.month) (hmport : q.portfolioId = none)
    (hmsame : mtarget.portfolioId = mother.portfolioId) :
    (updateDailySnapshot t id p).2 = 1 ∧
    (∃ r1 ∈ (updateDailySnapshot t id p).1, ∃ r2 ∈ (updateDailySnapshot t id p).1,
      r1.id ≠ r2.id ∧ r1.portfolioId = r2.portfolioId ∧ r1.date = r2.date) ∧
    (updateMonthlySnapshot u mid q).2 = 1 ∧
    (∃ r1 ∈ (updateMonthlySnapshot u mid q).1, ∃ r2 ∈ (updateMonthlySnapshot u mid q).1,
      r1.id ≠ r2.id ∧ r1.portfolioId = r2.portfolioId ∧ r1.month = r2.month) := by
  have hanyD : t.any (fun r => r.id = id) = true :=
    List.any_eq_true.mpr ⟨target, ht, by simp [hid]⟩
  have hanyM : u.any (fun r => r.id = mid) = true :=
    List.any_eq_true.mpr ⟨mtarget, hmt, by simp [hmid]⟩
  unfold updateDailySnapshot updateMonthlySnapshot
  rw [if_pos hanyD, if_pos hanyM]
  refine ⟨rfl, ?_, rfl, ?_⟩
  · refine ⟨other, List.mem_map.mpr ⟨other, hot, by rw [if_neg hoid]⟩,
      applyDailyPatch target p, List.mem_map.mpr ⟨target, ht, by rw [if_pos hid]⟩, ?_, ?_, ?_⟩
    · simp only [applyDailyPatch, hid]
      exact hoid
    · simp only [applyDailyPatch, hport, Option.getD_none]
      exact hsame.symm
    · simp only [applyDailyPatch, hdate, Option.getD_some]
  · refine ⟨mother, List.mem_map.mpr ⟨mother, hmo, by rw [if_neg hmoid]⟩,
      applyMonthlyPatch mtarget q, List.mem_map.mpr ⟨mtarget, hmt, by rw [if_pos hmid]⟩, ?_, ?_, ?_⟩
    · simp only [applyMonthlyPatch, hmid]
      exact hmoid
    · simp only [applyMonthlyPatch, hmport, Option.getD_none]
      exact hmsame.symm
    · simp only [applyMonthlyPatch, hmonth, Option.getD_some]

/-- Witness for the amended C7 at the concrete colliding updates. -/
theorem claim_C7_amended_witness :
    (c7A ∈ [c7A, c7B] ∧ c7B ∈ [c7A, c7B] ∧ c7B.id = "b" ∧ ¬ c7A.id = "b") ∧
    ((updateDailySnapshot [c7A, c7B] "b" { date := some "2024-01-01" }).2 = 1 ∧
      (∃ r1 ∈ (updateDailySnapshot [c7A, c7B] "b" { date := some "2024-01-01" }).1,
        ∃ r2 ∈ (updateDailySnapshot [c7A, c7B] "b" { date := some "2024-01-01" }).1,
          r1.id ≠ r2.id ∧ r1.portfolioId = r2.portfolioId ∧ r1.date = r2.date) ∧
      (updateMonthlySnapshot [c7MA, c7MB] "mb" { month := some "2024-01" }).2 = 1 ∧
      (∃ r1 ∈ (updateMonthlySnapshot [c7MA, c7MB] "mb" { month := some "2024-01" }).1,
        ∃ r2 ∈ (updateMonthlySnapshot [c7MA, c7MB] "mb" { month := some "2024-01" }).1,
          r1.id ≠ r2.id ∧ r1.portfolioId = r2.portfolioId ∧ r1.month = r2.month)) :=
  ⟨⟨by decide, by decide, by decide, by decide⟩,
    claim_C7_amended [c7A, c7B] "b" { date := some "2024-01-01" } c7B c7A
      (by decide) (by decide) (by decide) (by decide) (by decide) (by decide) (by decide)
      [c7MA, c7MB] "mb" { month := some "2024-01" } c7MB c7MA
      (by decide) (by decide) (by decide) (by decide) (by decide) (by decide) (by decide)⟩

/-! ## Analytics engine (`src/utils/calculations.ts`) -/

/-- Result record of `calculateVariation`. -/
structure Variation where
  amount : ℚ
  percent : ℚ
deriving DecidableEq, Repr

/-- `calculateVariation(current, previous)` — with the division-by-zero
policy `percent = 100` if `current > 0` else `0` when `previous == 0`. -/
def calculateVariation (current previous : ℚ) : Variation :=
  if previous = 0 then ⟨current, if current > 0 then 100 else 0⟩
  else ⟨current - previous, (current - previous) / previous * 100⟩

/-- `PerformanceMetrics` of `types.ts`. -/
structure PerformanceMetrics where
  total : ℚ
  change24h : ℚ
  change24hPercent : ℚ
  change7d : ℚ
  change7dPercent : ℚ
  change30d : ℚ
  change30dPercent : ℚ
  ath : ℚ
  athDate : String
deriving DecidableEq, Repr

/-- The all-zero metrics returned on an empty series. -/
def zeroMetrics : PerformanceMetrics := ⟨0, 0, 0, 0, 0, 0, 0, 0, ""⟩

/-- The sort key of `[...snapshots].sort((a, b) => b.date.localeCompare(a.date))`:
descending by date (newest first). -/
def dateDesc (a b : DailySnapshot) : Prop := strLe b.date a.date = true

instance : DecidableRel dateDesc := fun a b => by unfold dateDesc; infer_instance

instance : IsTotal DailySnapshot dateDesc :=
  ⟨fun a b => (strLe_total b.date a.date).elim Or.inl Or.inr⟩

instance : IsTrans DailySnapshot dateDesc :=
  ⟨fun _ _ _ hab hbc => strLe_trans hbc hab⟩

/-- Ascending date sort key (`(a, b) => a.date.localeCompare(b.date)`). -/
def dateAsc (a b : DailySnapshot) : Prop := strLe a.date b.date = true

instance : DecidableRel dateAsc := fun a b => by unfold dateAsc; infer_instance

/-- `[...snapshots].sort((a, b) => b.date.localeCompare(a.date))` — a stable
descending-by-date sort. -/
def sortByDateDesc (snapshots : List DailySnapshot) : List DailySnapshot :=
  List.insertionSort dateDesc snapshots

/-- The ATH loop of `calculatePerformanceMetrics`: starting from
`ath = 0, athDate = ''`, take the first strict improvement over the running
maximum, scanning the snapshots in input order. -/
def athScan (snapshots : List DailySnapshot) : ℚ × String :=
  snapshots.foldl
    (fun acc s => if acc.1 < s.totalUsd then (s.totalUsd, s.date) else acc) (0, "")

/-- One step of the `getSnapshotDaysAgo` scan over the sorted snapshots:
keep the snapshot with the greatest date among those on or before
`target`, skipping any snapshot dated like the latest one
(`snapshot.date !== latest.date`). -/
def closestStep (target latestDate : String) (closest : Option DailySnapshot)
    (s : DailySnapshot) : Option DailySnapshot :=
  if strLe s.date target = true ∧ s.date ≠ latestDate then
    match closest with
    | none => some s
    | some c => if strLt c.date s.date = true then some s else some c
  else closest

/-- `getSnapshotDaysAgo(days)` of `calculatePerformanceMetrics`: the
snapshot closest to (on or before) `latestDate − days`, excluding snapshots
dated like the latest; when none is found and the series has more than one
snapshot, fall back to the oldest (the last of the descending sort). -/
def getSnapshotDaysAgo (sorted : List DailySnapshot) (latestDate : String)
    (days : Nat) : Option DailySnapshot :=
  match sorted.foldl (closestStep (jsDateSubDays latestDate days) latestDate) none with
  | some c => some c
  | none => if 1 < sorted.length then sorted.getLast? else none

/-- `calculatePerformanceMetrics` of `src/utils/calculations.ts`. -/
def calculatePerformanceMetrics (snapshots : List DailySnapshot) : PerformanceMetrics :=
  if snapshots.isEmpty then zeroMetrics
  else
    match sortByDateDesc snapshots with
    | [] => zeroMetrics
    | latest :: rest =>
      let total := latest.totalUsd
      let athPair := athScan snapshots
      let variation24h := match rest.head? with
        | some p => calculateVariation total p.totalUsd
        | none => (⟨0, 0⟩ : Variation)
      let variation7d := match getSnapshotDaysAgo (latest :: rest) latest.date 7 with
        | some p => calculateVariation total p.totalUsd
        | none => (⟨0, 0⟩ : Variation)
      let variation30d := match getSnapshotDaysAgo (latest :: rest) latest.date 30 with
        | some p => calculateVariation total p.totalUsd
        | none => (⟨0, 0⟩ : Variation)
      { total := total
        change24h := variation24h.amount
        change24hPercent := variation24h.percent
        change7d := variation7d.amount
        change7dPercent := variation7d.percent
        change30d := variation30d.amount
        change30dPercent := variation30d.percent
        ath := athPair.1
        athDate := athPair.2 }

/-- `WalletAllocation` of `types.ts`. -/
structure WalletAllocation where
  walletId : String
  walletName : String
  value : ℚ
  percentage : ℚ
  color : String
deriving DecidableEq, Repr

/-- `calculateWalletAllocations` of `src/utils/calculations.ts` (the
`wallets` argument only uses the `id`/`name`/`color` fields). -/
def calculateWalletAllocations (snapshot : DailySnapshot) (wallets : List Wallet) :
    List WalletAllocation :=
  let total := snapshot.totalUsd
  if total = 0 then []
  else
    (snapshot.walletBalances.map (fun balance =>
      let wallet := wallets.find? (fun w => decide (w.id = balance.walletId))
      { walletId := balance.walletId
        walletName := (wallet.map (fun w => w.name)).getD "Unknown"
        value := balance.valueUsd
        percentage := balance.valueUsd / total * 100
        color := (wallet.map (fun w => w.color)).getD "#888888" : WalletAllocation })).filter
      (fun a => decide (0 < a.value))

/-- `s.startsWith(q)` on character lists. -/
def charsStartWith : List Char → List Char → Bool
  | _, [] => true
  | [], _ :: _ => false
  | a :: as, b :: bs => a = b && charsStartWith as bs

/-- JS `String.startsWith`. -/
def strStartsWith (s q : String) : Bool := charsStartWith s.toList q.toList

/-- The month key `` `${year}-${String(month).padStart(2, '0')}` ``. -/
def monthStrOf (year month : Nat) : String :=
  String.mk (natToPadded 1 year ++ '-' :: natToPadded 2 month)

/-- Result record of `calculateMonthlyDelta` (the `end` field of the source
is called `endVal` here because `end` is a Lean keyword). -/
structure MonthlyDelta where
  start : ℚ
  endVal : ℚ
  deltaUsd : ℚ
  deltaPercent : ℚ
deriving DecidableEq, Repr

/-- `calculateMonthlyDelta` of `utils/calculations.ts` (the variant kept in
the repository alongside the import helpers): filter the daily snapshots of
the given calendar month, and return all zeroes when there are none,
otherwise the variation from the first to the last snapshot of the month. -/
def calculateMonthlyDelta (snapshots : List DailySnapshot) (year month : Nat) :
    MonthlyDelta :=
  let monthStr := monthStrOf year month
  let monthSnapshots := snapshots.filter (fun s => strStartsWith s.date monthStr)
  if monthSnapshots.isEmpty then ⟨0, 0, 0, 0⟩
  else
    match List.insertionSort dateAsc monthSnapshots with
    | [] => ⟨0, 0, 0, 0⟩
    | first :: rest =>
      let start := first.totalUsd
      let endVal := ((first :: rest).getLast (List.cons_ne_nil _ _)).totalUsd
      let variation := calculateVariation endVal start
      ⟨start, endVal, variation.amount, variation.percent⟩

/-- `getMonthName(month, 'short')` (en-US short month names). -/
def monthNameShort : Nat → String
  | 1 => "Jan" | 2 => "Feb" | 3 => "Mar" | 4 => "Apr" | 5 => "May" | 6 => "Jun"
  | 7 => "Jul" | 8 => "Aug" | 9 => "Sep" | 10 => "Oct" | 11 => "Nov" | 12 => "Dec"
  | _ => ""

/-- One bucket of the `monthlyData` table of `pages/MonthlyView.tsx`; a
month with no Monthly Snapshot carries `snapshot = none` (the `?? null` of
the source). -/
structure MonthRow where
  month : Nat
  monthStr : String
  monthName : String
  snapshot : Option MonthlySnapshot
deriving DecidableEq, Repr

/-- The `monthlyData` memo of `pages/MonthlyView.tsx`: for each month
`1..12` of the chosen year, the bucket holds the first matching Monthly
Snapshot of the active portfolio, or `none`. -/
def monthlyData (activeMonthlySnapshots : List MonthlySnapshot) (currentYear : Nat) :
    List MonthRow :=
  (List.range 12).map (fun i =>
    let month := i + 1
    let monthStr := monthStrOf currentYear month
    let snapshot := activeMonthlySnapshots.find? (fun s => decide (s.month = monthStr))
    ⟨month, monthStr, monthNameShort month, snapshot⟩)

example : monthStrOf 2024 3 = "2024-03" := by decide
example : strStartsWith "2024-01-15" "2024-01" = true := by decide

/-! ## Claim C3 — monthly series buckets and "missing vs zero" -/

/-- A genuine all-zero daily snapshot inside January 2024. -/
def c3ZeroSnap : DailySnapshot := ⟨"z", "p1", "2024-01-15", [], 0, 0, 0⟩

/-- C3 counterexample: the per-month delta result of `calculateMonthlyDelta`
for a month with no snapshots (`{start 0, end 0, delta 0, 0%}`) coincides
exactly with the result for a genuine all-zero month, contrary to the
claim's requirement that the two be distinguishable. -/
theorem claim_C3_counterexample :
    calculateMonthlyDelta [] 2024 1 = ⟨0, 0, 0, 0⟩ ∧
    calculateMonthlyDelta [c3ZeroSnap] 2024 1 = ⟨0, 0, 0, 0⟩ ∧
    strStartsWith c3ZeroSnap.date (monthStrOf 2024 1) = true ∧
    c3ZeroSnap.totalUsd = 0 := by
  decide

/-- C3 amended: the monthly series construction (`monthlyData`) does return
exactly 12 buckets for any year and any snapshot list, and a month with no
Monthly Snapshot is the bucket with `snapshot = none` — distinguishable from
a month whose snapshot records `totalUsd = 0`; but the per-month delta
helper `calculateMonthlyDelta` collapses "no snapshots this month" to the
same all-zero record as a genuine all-zero month. -/
theorem claim_C3_amended (snaps : List MonthlySnapshot) (year : Nat) :
    (monthlyData snaps year).length = 12 ∧
    (∀ row ∈ monthlyData snaps year,
      (row.snapshot = none ↔ ∀ s ∈ snaps, s.month ≠ row.monthStr) ∧
      (∀ s, row.snapshot = some s → s ∈ snaps ∧ s.month = row.monthStr)) ∧
    calculateMonthlyDelta [c3ZeroSnap] 2024 1 = calculateMonthlyDelta [] 2024 1 := by
  refine ⟨?_, ?_, by decide⟩
  · simp [monthlyData]
  · intro row hrow
    rcases List.mem_map.mp hrow with ⟨i, _, hi⟩
    constructor
    · constructor
      · intro hnone s hs
        rw [← hi] at hnone ⊢
        simp only at hnone ⊢
        rw [List.find?_eq_none] at hnone
        have := hnone s hs
        simpa using this
      · intro hall
        rw [← hi]
        simp only
        rw [List.find?_eq_none]
        intro s hs
        have := hall s hs
        rw [← hi] at this
        simpa using this
    · intro s hsome
      rw [← hi] at hsome
      simp only at hsome
      refine ⟨List.mem_of_find?_eq_some hsome, ?_⟩
      have := List.find?_some hsome
      rw [← hi]
      simpa using this

/-- Witness for the amended C3 at a concrete year and snapshot list: one
recorded month (January 2024), eleven `none` buckets. -/
theorem claim_C3_amended_witness :
    (monthlyData [sampleMonthly1] 2024).length = 12 ∧
    (∀ row ∈ monthlyData [sampleMonthly1] 2024,
      (row.snapshot = none ↔ ∀ s ∈ [sampleMonthly1], s.month ≠ row.monthStr) ∧
      (∀ s, row.snapshot = some s → s ∈ [sampleMonthly1] ∧ s.month = row.monthStr)) ∧
    calculateMonthlyDelta [c3ZeroSnap] 2024 1 = calculateMonthlyDelta [] 2024 1 :=
  claim_C3_amended [sampleMonthly1] 2024

/-! ## Claim C8 — wallet allocation percentages -/

/-- C8: with `totalUsd = 0` the allocation list is empty; every returned
entry has positive value and `percentage = value / totalUsd × 100`; every
positive balance is represented; and when all balances are positive and
`totalUsd` equals their sum, the returned percentages sum to exactly 100. -/
theorem claim_C8_allocation_percentages (snapshot : DailySnapshot) (wallets : List Wallet) :
    (snapshot.totalUsd = 0 → calculateWalletAllocations snapshot wallets = []) ∧
    (∀ a ∈ calculateWalletAllocations snapshot wallets,
      0 < a.value ∧ a.percentage = a.value / snapshot.totalUsd * 100) ∧
    (snapshot.totalUsd ≠ 0 →
      ∀ b ∈ snapshot.walletBalances, 0 < b.valueUsd →
        ∃ a ∈ calculateWalletAllocations snapshot wallets,
          a.walletId = b.walletId ∧ a.value = b.valueUsd) ∧
    ((∀ b ∈ snapshot.walletBalances, 0 < b.valueUsd) →
      snapshot.totalUsd = (snapshot.walletBalances.map (fun b => b.valueUsd)).sum →
      0 < snapshot.totalUsd →
      ((calculateWalletAllocations snapshot wallets).map (fun a => a.percentage)).sum
        = 100) := by
  refine ⟨?_, ?_, ?_, ?_⟩
  · intro h0
    unfold calculateWalletAllocations
    rw [if_pos h0]
  · intro a ha
    unfold calculateWalletAllocations at ha
    by_cases h0 : snapshot.totalUsd = 0
    · rw [if_pos h0] at ha
      exact absurd ha (List.not_mem_nil a)
    · rw [if_neg h0] at ha
      rcases List.mem_filter.mp ha with ⟨hmem, hpos⟩
      rcases List.mem_map.mp hmem with ⟨b, _, hb⟩
      refine ⟨by simpa using hpos, ?_⟩
      rw [← hb]
  · intro h0 b hb hbpos
    unfold calculateWalletAllocations
    rw [if_neg h0]
    refine ⟨_, List.mem_filter.mpr ⟨List.mem_map.mpr ⟨b, hb, rfl⟩, by simpa using hbpos⟩,
      rfl, rfl⟩
  · intro hall hsum hpos
    have h0 : snapshot.totalUsd ≠ 0 := ne_of_gt hpos
    unfold calculateWalletAllocations
    rw [if_neg h0]
    rw [List.filter_eq_self.mpr]
    · rw [List.map_map]
      have hcomp :
          ((fun a : WalletAllocation => a.percentage) ∘ fun balance : WalletBalance =>
            ({ walletId := balance.walletId
               walletName := ((wallets.find? (fun w => decide (w.id = balance.walletId))).map
                 (fun w => w.name)).getD "Unknown"
               value := balance.valueUsd
               percentage := balance.valueUsd / snapshot.totalUsd * 100
               color := ((wallets.find? (fun w => decide (w.id = balance.walletId))).map
                 (fun w => w.color)).getD "#888888" : WalletAllocation })) =
          fun balance : WalletBalance => balance.valueUsd / snapshot.totalUsd * 100 := rfl
      rw [hcomp]
      have hstep : (fun balance : WalletBalance =>
          balance.valueUsd / snapshot.totalUsd * 100) =
          fun balance : WalletBalance =>
            balance.valueUsd * (snapshot.totalUsd⁻¹ * 100) := by
        funext balance
        rw [div_eq_mul_inv, mul_assoc]
      rw [hstep, List.sum_map_mul_right, ← hsum]
      rw [← mul_assoc, mul_inv_cancel₀ h0, one_mul]
    · intro a ha
      rcases List.mem_map.mp ha with ⟨b, hbmem, hb⟩
      have := hall b hbmem
      rw [← hb]
      simpa using this

/-- Concrete snapshot and wallets for the C8 witness. -/
def c8Snap : DailySnapshot :=
  ⟨"d1", "p1", "2024-01-02", [⟨"w1", 600⟩, ⟨"w2", 400⟩], 1000, 0, 0⟩

def c8Wallets : List Wallet :=
  [⟨"w1", "p1", "Cold", none, none, "#3b82f6"⟩, ⟨"w2", "p1", "Hot", none, none, "#a855f7"⟩]

/-- Witness for C8: two positive balances summing to the total; the
percentages returned for them sum to 100. -/
theorem claim_C8_allocation_percentages_witness :
    (∀ b ∈ c8Snap.walletBalances, 0 < b.valueUsd) ∧
    c8Snap.totalUsd = (c8Snap.walletBalances.map (fun b => b.valueUsd)).sum ∧
    0 < c8Snap.totalUsd ∧
    ((calculateWalletAllocations c8Snap c8Wallets).map (fun a => a.percentage)).sum
      = 100 :=
  ⟨by norm_num [c8Snap], by norm_num [c8Snap], by norm_num [c8Snap],
    (claim_C8_allocation_percentages c8Snap c8Wallets).2.2.2
      (by norm_num [c8Snap]) (by norm_num [c8Snap]) (by norm_num [c8Snap])⟩

/-! ## Claim C4 — ATH over the series -/

theorem athScan_go_const (l : List DailySnapshot) :
    ∀ (a : ℚ) (d : String), (∀ s ∈ l, s.totalUsd ≤ a) →
      l.foldl (fun acc s => if acc.1 < s.totalUsd then (s.totalUsd, s.date) else acc) (a, d)
        = (a, d) := by
  induction l with
  | nil => intro a d _; rfl
  | cons s t ih =>
    intro a d h
    have hs : ¬ a < s.totalUsd := not_lt.mpr (h s (List.mem_cons_self s t))
    simp only [List.foldl_cons, if_neg hs]
    exact ih a d (fun x hx => h x (List.mem_cons_of_mem s hx))

theorem athScan_go_hit (l : List DailySnapshot) :
    ∀ (a : ℚ) (d : String) (M : ℚ), a < M → (∀ s ∈ l, s.totalUsd ≤ M) →
      (∃ s ∈ l, s.totalUsd = M) →
      ∃ first, l.find? (fun s => decide (s.totalUsd = M)) = some first ∧
        l.foldl (fun acc s => if acc.1 < s.totalUsd then (s.totalUsd, s.date) else acc) (a, d)
          = (M, first.date) := by
  induction l with
  | nil =>
    intro a d M _ _ hex
    rcases hex with ⟨s, hs, _⟩
    exact absurd hs (List.not_mem_nil s)
  | cons s t ih =>
    intro a d M haM hle hex
    by_cases hsM : s.totalUsd = M
    · refine ⟨s, ?_, ?_⟩
      · rw [List.find?_cons_of_pos]
        simpa using hsM
      · have hlt : a < s.totalUsd := hsM.symm ▸ haM
        simp only [List.foldl_cons]
        rw [if_pos hlt, hsM]
        exact athScan_go_const t M s.date (fun x hx => hle x (List.mem_cons_of_mem s hx))
    · have hext : ∃ x ∈ t, x.totalUsd = M := by
        rcases hex with ⟨x, hx, hxM⟩
        rcases List.mem_cons.mp hx with rfl | hxt
        · exact absurd hxM hsM
        · exact ⟨x, hxt, hxM⟩
      have hlet : ∀ x ∈ t, x.totalUsd ≤ M := fun x hx => hle x (List.mem_cons_of_mem s hx)
      by_cases hlt : a < s.totalUsd
      · have hsMlt : s.totalUsd < M :=
          lt_of_le_of_ne (hle s (List.mem_cons_self s t)) hsM
        rcases ih s.totalUsd s.date M hsMlt hlet hext with ⟨first, hfind, hfold⟩
        refine ⟨first, ?_, ?_⟩
        · rw [List.find?_cons_of_neg]
          · exact hfind
          · simpa using hsM
        · simp only [List.foldl_cons, if_pos hlt]
          exact hfold
      · rcases ih a d M haM hlet hext with ⟨first, hfind, hfold⟩
        refine ⟨first, ?_, ?_⟩
        · rw [List.find?_cons_of_neg]
          · exact hfind
          · simpa using hsM
        · simp only [List.foldl_cons, if_neg hlt]
          exact hfold

theorem exists_max_total (l : List DailySnapshot) (h : l ≠ []) :
    ∃ M, (∀ s ∈ l, s.totalUsd ≤ M) ∧ ∃ s ∈ l, s.totalUsd = M := by
  induction l with
  | nil => exact absurd rfl h
  | cons a t ih =>
    cases t with
    | nil =>
      refine ⟨a.totalUsd, ?_, a, List.mem_cons_self a [], rfl⟩
      intro s hs
      rcases List.mem_cons.mp hs with rfl | hs
      · exact le_refl _
      · exact absurd hs (List.not_mem_nil s)
    | cons b u =>
      rcases ih (List.cons_ne_nil b u) with ⟨M', hle', s', hs', hM'⟩
      refine ⟨max a.totalUsd M', ?_, ?_⟩
      · intro s hs
        rcases List.mem_cons.mp hs with rfl | hs
        · exact le_max_left _ _
        · exact le_trans (hle' s hs) (le_max_right _ _)
      · rcases le_total a.totalUsd M' with hcase | hcase
        · exact ⟨s', List.mem_cons_of_mem a hs', by rw [max_eq_right hcase]; exact hM'⟩
        · exact ⟨a, List.mem_cons_self a _, (max_eq_left hcase).symm⟩

/-- Characterization of `calculatePerformanceMetrics` on a non-empty series
in terms of its sorted form. -/
theorem cpm_spec (snaps : List DailySnapshot) (latest : DailySnapshot)
    (rest : List DailySnapshot) (hs : sortByDateDesc snaps = latest :: rest) :
    calculatePerformanceMetrics snaps =
      { total := latest.totalUsd
        change24h := (match rest.head? with
          | some p => calculateVariation latest.totalUsd p.totalUsd
          | none => (⟨0, 0⟩ : Variation)).amount
        change24hPercent := (match rest.head? with
          | some p => calculateVariation latest.totalUsd p.totalUsd
          | none => (⟨0, 0⟩ : Variation)).percent
        change7d := (match getSnapshotDaysAgo (latest :: rest) latest.date 7 with
          | some p => calculateVariation latest.totalUsd p.totalUsd
          | none => (⟨0, 0⟩ : Variation)).amount
        change7dPercent := (match getSnapshotDaysAgo (latest :: rest) latest.date 7 with
          | some p => calculateVariation latest.totalUsd p.totalUsd
          | none => (⟨0, 0⟩ : Variation)).percent
        change30d := (match getSnapshotDaysAgo (latest :: rest) latest.date 30 with
          | some p => calculateVariation latest.totalUsd p.totalUsd
          | none => (⟨0, 0⟩ : Variation)).amount
        change30dPercent := (match getSnapshotDaysAgo (latest :: rest) latest.date 30 with
          | some p => calculateVariation latest.totalUsd p.totalUsd
          | none => (⟨0, 0⟩ : Variation)).percent
        ath := (athScan snaps).1
        athDate := (athScan snaps).2 } := by
  cases snaps with
  | nil =>
    exfalso
    have : sortByDateDesc ([] : List DailySnapshot) = [] := rfl
    rw [this] at hs
    exact List.noConfusion hs
  | cons a t =>
    unfold calculatePerformanceMetrics
    rw [if_neg (by simp)]
    rw [hs]

/-- C4 counterexample: on the one-element series whose only snapshot has
`totalUsd = 0`, the maximum `totalUsd` is 0 and is achieved by a snapshot
dated `"2024-01-01"`, yet `athDate` is the empty string — not the date of
any snapshot achieving the maximum. -/
theorem claim_C4_counterexample :
    (calculatePerformanceMetrics [⟨"s1", "p1", "2024-01-01", [], 0, 0, 0⟩]).ath = 0 ∧
    (calculatePerformanceMetrics [⟨"s1", "p1", "2024-01-01", [], 0, 0, 0⟩]).athDate = "" ∧
    (∀ s ∈ [(⟨"s1", "p1", "2024-01-01", [], 0, 0, 0⟩ : DailySnapshot)], s.totalUsd ≤ 0) ∧
    (∃ s ∈ [(⟨"s1", "p1", "2024-01-01", [], 0, 0, 0⟩ : DailySnapshot)], s.totalUsd = 0) ∧
    (∀ s ∈ [(⟨"s1", "p1", "2024-01-01", [], 0, 0, 0⟩ : DailySnapshot)], s.date ≠ "") := by
  refine ⟨?_, ?_, by decide, by decide, by decide⟩ <;> decide

/-- C4 amended: whenever some snapshot of the series has positive
`totalUsd`, `ath` is the maximum `totalUsd` over the entire series and
`athDate` is the date of the first snapshot (in input order) achieving that
maximum; the restriction to a positive maximum is forced because the ATH
loop starts from `ath = 0, athDate = ''`, so an all-non-positive series
reports `ath = 0` with an empty `athDate`. -/
theorem claim_C4_amended (snaps : List DailySnapshot)
    (hpos : ∃ s ∈ snaps, 0 < s.totalUsd) :
    ∃ M, (∀ s ∈ snaps, s.totalUsd ≤ M) ∧ (∃ s ∈ snaps, s.totalUsd = M) ∧
      (calculatePerformanceMetrics snaps).ath = M ∧
      ∃ first ∈ snaps, first.totalUsd = M ∧
        snaps.find? (fun s => decide (s.totalUsd = M)) = some first ∧
        (calculatePerformanceMetrics snaps).athDate = first.date := by
  have hne : snaps ≠ [] := by
    rcases hpos with ⟨s, hs, _⟩
    intro h
    rw [h] at hs
    exact List.not_mem_nil s hs
  rcases exists_max_total snaps hne with ⟨M, hle, hatt⟩
  have hM : 0 < M := by
    rcases hpos with ⟨s, hs, hs0⟩
    exact lt_of_lt_of_le hs0 (hle s hs)
  rcases athScan_go_hit snaps 0 "" M hM hle hatt with ⟨first, hfind, hfold⟩
  cases hsort : sortByDateDesc snaps with
  | nil =>
    exfalso
    have := (List.perm_insertionSort dateDesc snaps).length_eq
    rw [show List.insertionSort dateDesc snaps = sortByDateDesc snaps from rfl, hsort] at this
    cases snaps with
    | nil => exact hne rfl
    | cons a t => exact absurd this.symm (by simp)
  | cons latest rest =>
    rw [cpm_spec snaps latest rest hsort]
    have hath : athScan snaps = (M, first.date) := hfold
    refine ⟨M, hle, hatt, by rw [show (athScan snaps).1 = M by rw [hath]], ?_⟩
    refine ⟨first, List.mem_of_find?_eq_some hfind, ?_, hfind,
      by rw [show (athScan snaps).2 = first.date by rw [hath]]⟩
    have := List.find?_some hfind
    simpa using this

/-- Witness for the amended C4: a three-snapshot series whose maximum 1200
is first achieved by the snapshot dated `"2024-01-02"`. -/
theorem claim_C4_amended_witness :
    (∃ s ∈ [(⟨"a", "p1", "2024-01-01", [], 1000, 0, 0⟩ : DailySnapshot),
            ⟨"b", "p1", "2024-01-02", [], 1200, 0, 0⟩,
            ⟨"c", "p1", "2024-01-03", [], 1200, 0, 0⟩], 0 < s.totalUsd) ∧
    ∃ M, (∀ s ∈ [(⟨"a", "p1", "2024-01-01", [], 1000, 0, 0⟩ : DailySnapshot),
            ⟨"b", "p1", "2024-01-02", [], 1200, 0, 0⟩,
            ⟨"c", "p1", "2024-01-03", [], 1200, 0, 0⟩], s.totalUsd ≤ M) ∧
      (∃ s ∈ [(⟨"a", "p1", "2024-01-01", [], 1000, 0, 0⟩ : DailySnapshot),
            ⟨"b", "p1", "2024-01-02", [], 1200, 0, 0⟩,
            ⟨"c", "p1", "2024-01-03", [], 1200, 0, 0⟩], s.totalUsd = M) ∧
      (calculatePerformanceMetrics [(⟨"a", "p1", "2024-01-01", [], 1000, 0, 0⟩ : DailySnapshot),
            ⟨"b", "p1", "2024-01-02", [], 1200, 0, 0⟩,
            ⟨"c", "p1", "2024-01-03", [], 1200, 0, 0⟩]).ath = M ∧
      ∃ first ∈ [(⟨"a", "p1", "2024-01-01", [], 1000, 0, 0⟩ : DailySnapshot),
            ⟨"b", "p1", "2024-01-02", [], 1200, 0, 0⟩,
            ⟨"c", "p1", "2024-01-03", [], 1200, 0, 0⟩], first.totalUsd = M ∧
        List.find? (fun s => decide (s.totalUsd = M))
            [(⟨"a", "p1", "2024-01-01", [], 1000, 0, 0⟩ : DailySnapshot),
            ⟨"b", "p1", "2024-01-02", [], 1200, 0, 0⟩,
            ⟨"c", "p1", "2024-01-03", [], 1200, 0, 0⟩] = some first ∧
        (calculatePerformanceMetrics [(⟨"a", "p1", "2024-01-01", [], 1000, 0, 0⟩ : DailySnapshot),
            ⟨"b", "p1", "2024-01-02", [], 1200, 0, 0⟩,
            ⟨"c", "p1", "2024-01-03", [], 1200, 0, 0⟩]).athDate = first.date :=
  ⟨⟨⟨"a", "p1", "2024-01-01", [], 1000, 0, 0⟩, by decide, by norm_num⟩,
    claim_C4_amended _ ⟨⟨"a", "p1", "2024-01-01", [], 1000, 0, 0⟩, by decide, by norm_num⟩⟩

/-! ## Claim C5 — lookback selection lemmas -/

theorem closestFold_from_some (target latestDate : String) :
    ∀ (l : List DailySnapshot) (c₀ : DailySnapshot),
      ∃ c, l.foldl (closestStep target latestDate) (some c₀) = some c ∧
        strLe c₀.date c.date = true ∧
        (c = c₀ ∨ (c ∈ l ∧ strLe c.date target = true ∧ c.date ≠ latestDate)) ∧
        (∀ s ∈ l, strLe s.date target = true → s.date ≠ latestDate →
          strLe s.date c.date = true) := by
  intro l
  induction l with
  | nil =>
    intro c₀
    exact ⟨c₀, rfl, strLe_refl _, Or.inl rfl, fun s hs => absurd hs (List.not_mem_nil s)⟩
  | cons s t ih =>
    intro c₀
    by_cases hP : strLe s.date target = true ∧ s.date ≠ latestDate
    · by_cases hup : strLt c₀.date s.date = true
      · rcases ih s with ⟨c, hfold, hdom, hprov, hmax⟩
        refine ⟨c, ?_, ?_, ?_, ?_⟩
        · simp only [List.foldl_cons, closestStep, if_pos hP, if_pos hup]
          exact hfold
        · exact strLe_trans (strLe_of_strLt hup) hdom
        · rcases hprov with rfl | ⟨hc, hcP⟩
          · exact Or.inr ⟨List.mem_cons_self _ _, hP⟩
          · exact Or.inr ⟨List.mem_cons_of_mem _ hc, hcP⟩
        · intro x hx hx1 hx2
          rcases List.mem_cons.mp hx with rfl | hxt
          · exact hdom
          · exact hmax x hxt hx1 hx2
      · rcases ih c₀ with ⟨c, hfold, hdom, hprov, hmax⟩
        refine ⟨c, ?_, hdom, ?_, ?_⟩
        · simp only [List.foldl_cons, closestStep, if_pos hP, if_neg hup]
          exact hfold
        · rcases hprov with rfl | ⟨hc, hcP⟩
          · exact Or.inl rfl
          · exact Or.inr ⟨List.mem_cons_of_mem s hc, hcP⟩
        · intro x hx hx1 hx2
          rcases List.mem_cons.mp hx with rfl | hxt
          · have hsc : strLe x.date c₀.date = true := by
              rw [strLt_eq_not_strLe] at hup
              simpa using hup
            exact strLe_trans hsc hdom
          · exact hmax x hxt hx1 hx2
    · rcases ih c₀ with ⟨c, hfold, hdom, hprov, hmax⟩
      refine ⟨c, ?_, hdom, ?_, ?_⟩
      · simp only [List.foldl_cons, closestStep, if_neg hP]
        exact hfold
      · rcases hprov with rfl | ⟨hc, hcP⟩
        · exact Or.inl rfl
        · exact Or.inr ⟨List.mem_cons_of_mem s hc, hcP⟩
      · intro x hx hx1 hx2
        rcases List.mem_cons.mp hx with rfl | hxt
        · exact absurd ⟨hx1, hx2⟩ hP
        · exact hmax x hxt hx1 hx2

theorem closestFold_none_of_no_match (target latestDate : String) :
    ∀ (l : List DailySnapshot) (acc : Option DailySnapshot),
      (∀ s ∈ l, ¬(strLe s.date target = true ∧ s.date ≠ latestDate)) →
      l.foldl (closestStep target latestDate) acc = acc := by
  intro l
  induction l with
  | nil => intro acc _; rfl
  | cons s t ih =>
    intro acc h
    have hs : ¬(strLe s.date target = true ∧ s.date ≠ latestDate) :=
      h s (List.mem_cons_self s t)
    simp only [List.foldl_cons, closestStep, if_neg hs]
    exact ih acc (fun x hx => h x (List.mem_cons_of_mem s hx))

theorem closestFold_some_char (target latestDate : String) :
    ∀ (l : List DailySnapshot) (c : DailySnapshot),
      l.foldl (closestStep target latestDate) none = some c →
      c ∈ l ∧ strLe c.date target = true ∧ c.date ≠ latestDate ∧
        (∀ s ∈ l, strLe s.date target = true → s.date ≠ latestDate →
          strLe s.date c.date = true) := by
  intro l
  induction l with
  | nil => intro c h; exact absurd h (by simp)
  | cons s t ih =>
    intro c h
    by_cases hP : strLe s.date target = true ∧ s.date ≠ latestDate
    · rw [List.foldl_cons] at h
      rw [show closestStep target latestDate none s = some s from by
        simp only [closestStep, if_pos hP]] at h
      rcases closestFold_from_some target latestDate t s with ⟨c', hfold, hdom, hprov, hmax⟩
      rw [hfold] at h
      cases h
      refine ⟨?_, ?_, ?_, ?_⟩
      · rcases hprov with rfl | ⟨hc, _⟩
        · exact List.mem_cons_self _ _
        · exact List.mem_cons_of_mem s hc
      · rcases hprov with rfl | ⟨_, hcP, _⟩
        · exact hP.1
        · exact hcP
      · rcases hprov with rfl | ⟨_, _, hcd⟩
        · exact hP.2
        · exact hcd
      · intro x hx hx1 hx2
        rcases List.mem_cons.mp hx with rfl | hxt
        · exact hdom
        · exact hmax x hxt hx1 hx2
    · rw [List.foldl_cons] at h
      rw [show closestStep target latestDate none s = none from by
        simp only [closestStep, if_neg hP]] at h
      rcases ih c h with ⟨hc, hc1, hc2, hcmax⟩
      refine ⟨List.mem_cons_of_mem s hc, hc1, hc2, ?_⟩
      intro x hx hx1 hx2
      rcases List.mem_cons.mp hx with rfl | hxt
      · exact absurd ⟨hx1, hx2⟩ hP
      · exact hcmax x hxt hx1 hx2

theorem closestFold_none_char (target latestDate : String) :
    ∀ (l : List DailySnapshot),
      l.foldl (closestStep target latestDate) none = none →
      ∀ s ∈ l, ¬(strLe s.date target = true ∧ s.date ≠ latestDate) := by
  intro l
  induction l with
  | nil => intro _ s hs; exact absurd hs (List.not_mem_nil s)
  | cons s t ih =>
    intro h x hx
    by_cases hP : strLe s.date target = true ∧ s.date ≠ latestDate
    · exfalso
      rw [List.foldl_cons] at h
      rw [show closestStep target latestDate none s = some s from by
        simp only [closestStep, if_pos hP]] at h
      rcases closestFold_from_some target latestDate t s with ⟨c', hfold, _, _, _⟩
      rw [hfold] at h
      exact Option.noConfusion h
    · rw [List.foldl_cons] at h
      rw [show closestStep target latestDate none s = none from by
        simp only [closestStep, if_neg hP]] at h
      rcases List.mem_cons.mp hx with rfl | hxt
      · exact hP
      · exact ih h x hxt

/-- When some non-latest snapshot lies on or before the target date,
`getSnapshotDaysAgo` returns the one with the greatest date among them. -/
theorem gsda_some_of_exists (sorted : List DailySnapshot) (latestDate : String) (days : Nat)
    (hex : ∃ s ∈ sorted,
      strLe s.date (jsDateSubDays latestDate days) = true ∧ s.date ≠ latestDate) :
    ∃ c, getSnapshotDaysAgo sorted latestDate days = some c ∧ c ∈ sorted ∧
      strLe c.date (jsDateSubDays latestDate days) = true ∧ c.date ≠ latestDate ∧
      ∀ s ∈ sorted, strLe s.date (jsDateSubDays latestDate days) = true →
        s.date ≠ latestDate → strLe s.date c.date = true := by
  unfold getSnapshotDaysAgo
  cases hfold : sorted.foldl (closestStep (jsDateSubDays latestDate days) latestDate) none with
  | none =>
    exfalso
    rcases hex with ⟨s, hs, h1, h2⟩
    exact closestFold_none_char _ _ sorted hfold s hs ⟨h1, h2⟩
  | some c =>
    rcases closestFold_some_char _ _ sorted c hfold with ⟨hc, h1, h2, hmax⟩
    exact ⟨c, rfl, hc, h1, h2, hmax⟩

/-- When no non-latest snapshot lies on or before the target date,
`getSnapshotDaysAgo` falls back to the last of the sorted list (when the
series has more than one snapshot). -/
theorem gsda_fallback (sorted : List DailySnapshot) (latestDate : String) (days : Nat)
    (hnone : ∀ s ∈ sorted,
      ¬(strLe s.date (jsDateSubDays latestDate days) = true ∧ s.date ≠ latestDate)) :
    getSnapshotDaysAgo sorted latestDate days =
      if 1 < sorted.length then sorted.getLast? else none := by
  unfold getSnapshotDaysAgo
  rw [closestFold_none_of_no_match _ _ sorted none hnone]

/-- In a descending-sorted list, the last element's date is at most every
element's date. -/
theorem sorted_getLast_min :
    ∀ (l : List DailySnapshot) (h : l ≠ []), List.Sorted dateDesc l →
      ∀ s ∈ l, strLe (l.getLast h).date s.date = true := by
  intro l
  induction l with
  | nil => intro h; exact absurd rfl h
  | cons x t ih =>
    intro _ hsort s hs
    cases t with
    | nil =>
      rcases List.mem_cons.mp hs with rfl | hs
      · exact strLe_refl _
      · exact absurd hs (List.not_mem_nil s)
    | cons y u =>
      rw [List.getLast_cons (List.cons_ne_nil y u)]
      rcases List.mem_cons.mp hs with rfl | hst
      · have hlast : (y :: u).getLast (List.cons_ne_nil y u) ∈ y :: u :=
          List.getLast_mem _
        exact (List.sorted_cons.mp hsort).1 _ hlast
      · exact ih (List.cons_ne_nil y u) (List.sorted_cons.mp hsort).2 s hst

/-- Core lookback property behind `change7d`/`change30d`: given the sorted
form of a series with pairwise-distinct dates, `getSnapshotDaysAgo` selects
the snapshot with the greatest date at or before `latest.date − days`
(excluding the latest snapshot), and falls back to the oldest snapshot of
the series when no such snapshot exists. -/
theorem lookback_spec (snaps : List DailySnapshot) (latest : DailySnapshot)
    (rest : List DailySnapshot) (hsort : sortByDateDesc snaps = latest :: rest)
    (hnodup : (snaps.map (fun s => s.date)).Nodup)
    (hlen : 2 ≤ snaps.length) (days : Nat) :
    ((∃ s ∈ snaps, s ≠ latest ∧ strLe s.date (jsDateSubDays latest.date days) = true) →
      ∃ r ∈ snaps, r ≠ latest ∧ strLe r.date (jsDateSubDays latest.date days) = true ∧
        (∀ s ∈ snaps, s ≠ latest → strLe s.date (jsDateSubDays latest.date days) = true →
          strLe s.date r.date = true) ∧
        getSnapshotDaysAgo (latest :: rest) latest.date days = some r) ∧
    ((¬ ∃ s ∈ snaps, s ≠ latest ∧ strLe s.date (jsDateSubDays latest.date days) = true) →
      ∃ oldest ∈ snaps, (∀ s ∈ snaps, strLe oldest.date s.date = true) ∧
        getSnapshotDaysAgo (latest :: rest) latest.date days = some oldest) := by
  have hperm : (latest :: rest).Perm snaps := by
    rw [← hsort]
    exact List.perm_insertionSort dateDesc snaps
  have hmem : ∀ x : DailySnapshot, x ∈ latest :: rest ↔ x ∈ snaps :=
    fun x => hperm.mem_iff
  have hsorted : List.Sorted dateDesc (latest :: rest) := by
    rw [← hsort]
    exact List.sorted_insertionSort dateDesc snaps
  have hlatest : latest ∈ snaps := (hmem latest).mp (List.mem_cons_self _ _)
  have hinj : ∀ ⦃x⦄, x ∈ snaps → ∀ ⦃y⦄, y ∈ snaps → x.date = y.date → x = y :=
    List.inj_on_of_nodup_map hnodup
  constructor
  · intro hex
    rcases hex with ⟨s, hs, hsne, hsle⟩
    have hdne : s.date ≠ latest.date := fun h => hsne (hinj hs hlatest h)
    rcases gsda_some_of_exists (latest :: rest) latest.date days
        ⟨s, (hmem s).mpr hs, hsle, hdne⟩ with ⟨c, hceq, hcmem, hcle, hcdne, hcmax⟩
    refine ⟨c, (hmem c).mp hcmem, ?_, hcle, ?_, hceq⟩
    · intro h
      exact hcdne (congrArg DailySnapshot.date h)
    · intro x hx hxne hxle
      have hxdne : x.date ≠ latest.date := fun h => hxne (hinj hx hlatest h)
      exact hcmax x ((hmem x).mpr hx) hxle hxdne
  · intro hnone
    have hnomatch : ∀ s ∈ latest :: rest,
        ¬(strLe s.date (jsDateSubDays latest.date days) = true ∧ s.date ≠ latest.date) := by
      intro s hs ⟨h1, h2⟩
      have hsne : s ≠ latest := fun he => h2 (congrArg DailySnapshot.date he)
      exact hnone ⟨s, (hmem s).mp hs, hsne, h1⟩
    have hlen2 : 1 < (latest :: rest).length := by
      rw [hperm.length_eq]
      exact lt_of_lt_of_le one_lt_two hlen
    have hgl := gsda_fallback (latest :: rest) latest.date days hnomatch
    rw [if_pos hlen2, List.getLast?_eq_getLast _ (List.cons_ne_nil latest rest)] at hgl
    refine ⟨(latest :: rest).getLast (List.cons_ne_nil latest rest),
      (hmem _).mp (List.getLast_mem _), ?_, hgl⟩
    intro s hs
    exact sorted_getLast_min (latest :: rest) (List.cons_ne_nil latest rest) hsorted
      s ((hmem s).mpr hs)

/-- C5: with at least two snapshots and pairwise-distinct dates, `change24h`
is the variation of the latest total against the chronologically previous
snapshot (the prior entry by date order, regardless of the gap), and
`change7d`/`change30d` are the variation against the snapshot with the
greatest date at or before `latest.date − 7`/`− 30` days — the latest
snapshot itself excluded — falling back to the oldest snapshot of the
series when no snapshot lies at or before the boundary. -/
theorem claim_C5_change_lookbacks (snaps : List DailySnapshot)
    (hlen : 2 ≤ snaps.length)
    (hnodup : (snaps.map (fun s => s.date)).Nodup) :
    ∃ latest ∈ snaps, ∃ prev ∈ snaps,
      (∀ s ∈ snaps, strLe s.date latest.date = true) ∧
      prev ≠ latest ∧
      (∀ s ∈ snaps, s ≠ latest → strLe s.date prev.date = true) ∧
      (calculatePerformanceMetrics snaps).change24h
        = (calculateVariation latest.totalUsd prev.totalUsd).amount ∧
      (calculatePerformanceMetrics snaps).change24hPercent
        = (calculateVariation latest.totalUsd prev.totalUsd).percent ∧
      ((∃ s ∈ snaps, s ≠ latest ∧ strLe s.date (jsDateSubDays latest.date 7) = true) →
        ∃ r ∈ snaps, r ≠ latest ∧ strLe r.date (jsDateSubDays latest.date 7) = true ∧
          (∀ s ∈ snaps, s ≠ latest → strLe s.date (jsDateSubDays latest.date 7) = true →
            strLe s.date r.date = true) ∧
          (calculatePerformanceMetrics snaps).change7d
            = (calculateVariation latest.totalUsd r.totalUsd).amount ∧
          (calculatePerformanceMetrics snaps).change7dPercent
            = (calculateVariation latest.totalUsd r.totalUsd).percent) ∧
      ((¬ ∃ s ∈ snaps, s ≠ latest ∧ strLe s.date (jsDateSubDays latest.date 7) = true) →
        ∃ oldest ∈ snaps, (∀ s ∈ snaps, strLe oldest.date s.date = true) ∧
          (calculatePerformanceMetrics snaps).change7d
            = (calculateVariation latest.totalUsd oldest.totalUsd).amount ∧
          (calculatePerformanceMetrics snaps).change7dPercent
            = (calculateVariation latest.totalUsd oldest.totalUsd).percent) ∧
      ((∃ s ∈ snaps, s ≠ latest ∧ strLe s.date (jsDateSubDays latest.date 30) = true) →
        ∃ r ∈ snaps, r ≠ latest ∧ strLe r.date (jsDateSubDays latest.date 30) = true ∧
          (∀ s ∈ snaps, s ≠ latest → strLe s.date (jsDateSubDays latest.date 30) = true →
            strLe s.date r.date = true) ∧
          (calculatePerformanceMetrics snaps).change30d
            = (calculateVariation latest.totalUsd r.totalUsd).amount ∧
          (calculatePerformanceMetrics snaps).change30dPercent
            = (calculateVariation latest.totalUsd r.totalUsd).percent) ∧
      ((¬ ∃ s ∈ snaps, s ≠ latest ∧ strLe s.date (jsDateSubDays latest.date 30) = true) →
        ∃ oldest ∈ snaps, (∀ s ∈ snaps, strLe oldest.date s.date = true) ∧
          (calculatePerformanceMetrics snaps).change30d
            = (calculateVariation latest.totalUsd oldest.totalUsd).amount ∧
          (calculatePerformanceMetrics snaps).change30dPercent
            = (calculateVariation latest.totalUsd oldest.totalUsd).percent) := by
  cases hsort : sortByDateDesc snaps with
  | nil =>
    exfalso
    have := (List.perm_insertionSort dateDesc snaps).length_eq
    rw [show List.insertionSort dateDesc snaps = sortByDateDesc snaps from rfl, hsort] at this
    simp only [List.length_nil] at this
    omega
  | cons latest rest =>
    cases rest with
    | nil =>
      exfalso
      have := (List.perm_insertionSort dateDesc snaps).length_eq
      rw [show List.insertionSort dateDesc snaps = sortByDateDesc snaps from rfl, hsort] at this
      simp only [List.length_cons, List.length_nil] at this
      omega
    | cons prev rest2 =>
      have hperm : (latest :: prev :: rest2).Perm snaps := by
        rw [← hsort]
        exact List.perm_insertionSort dateDesc snaps
      have hmem : ∀ x : DailySnapshot, x ∈ latest :: prev :: rest2 ↔ x ∈ snaps :=
        fun x => hperm.mem_iff
      have hsorted : List.Sorted dateDesc (latest :: prev :: rest2) := by
        rw [← hsort]
        exact List.sorted_insertionSort dateDesc snaps
      have hnodupS : ((latest :: prev :: rest2).map (fun s => s.date)).Nodup :=
        (hperm.map (fun s => s.date)).nodup_iff.mpr hnodup
      have hlatest : latest ∈ snaps := (hmem latest).mp (List.mem_cons_self _ _)
      have hprev : prev ∈ snaps :=
        (hmem prev).mp (List.mem_cons_of_mem _ (List.mem_cons_self _ _))
      have hprevne : prev ≠ latest := by
        intro h
        have : latest.date ∈ (prev :: rest2).map (fun s => s.date) := by
          rw [← h]
          exact List.mem_map.mpr ⟨prev, List.mem_cons_self _ _, rfl⟩
        exact (List.nodup_cons.mp hnodupS).1 this
      have hlatmax : ∀ s ∈ snaps, strLe s.date latest.date = true := by
        intro s hs
        rcases List.mem_cons.mp ((hmem s).mpr hs) with rfl | hst
        · exact strLe_refl _
        · exact List.rel_of_sorted_cons hsorted s hst
      have hprevmax : ∀ s ∈ snaps, s ≠ latest → strLe s.date prev.date = true := by
        intro s hs hne
        rcases List.mem_cons.mp ((hmem s).mpr hs) with rfl | hst
        · exact absurd rfl hne
        · rcases List.mem_cons.mp hst with rfl | hst2
          · exact strLe_refl _
          · exact List.rel_of_sorted_cons (List.sorted_cons.mp hsorted).2 s hst2
      have h24 : (calculatePerformanceMetrics snaps).change24h
          = (calculateVariation latest.totalUsd prev.totalUsd).amount := by
        rw [cpm_spec snaps latest (prev :: rest2) hsort]
        rfl
      have h24p : (calculatePerformanceMetrics snaps).change24hPercent
          = (calculateVariation latest.totalUsd prev.totalUsd).percent := by
        rw [cpm_spec snaps latest (prev :: rest2) hsort]
        rfl
      rcases lookback_spec snaps latest (prev :: rest2) hsort hnodup hlen 7 with ⟨hA7, hB7⟩
      rcases lookback_spec snaps latest (prev :: rest2) hsort hnodup hlen 30 with ⟨hA30, hB30⟩
      refine ⟨latest, hlatest, prev, hprev, hlatmax, hprevne, hprevmax, h24, h24p,
        ?_, ?_, ?_, ?_⟩
      · intro hex
        rcases hA7 hex with ⟨r, hr, hrne, hrle, hrmax, hreq⟩
        refine ⟨r, hr, hrne, hrle, hrmax, ?_, ?_⟩
        · rw [cpm_spec snaps latest (prev :: rest2) hsort]
          simp only [hreq]
        · rw [cpm_spec snaps latest (prev :: rest2) hsort]
          simp only [hreq]
      · intro hnone
        rcases hB7 hnone with ⟨oldest, ho, homin, hoeq⟩
        refine ⟨oldest, ho, homin, ?_, ?_⟩
        · rw [cpm_spec snaps latest (prev :: rest2) hsort]
          simp only [hoeq]
        · rw [cpm_spec snaps latest (prev :: rest2) hsort]
          simp only [hoeq]
      · intro hex
        rcases hA30 hex with ⟨r, hr, hrne, hrle, hrmax, hreq⟩
        refine ⟨r, hr, hrne, hrle, hrmax, ?_, ?_⟩
        · rw [cpm_spec snaps latest (prev :: rest2) hsort]
          simp only [hreq]
        · rw [cpm_spec snaps latest (prev :: rest2) hsort]
          simp only [hreq]
      · intro hnone
        rcases hB30 hnone with ⟨oldest, ho, homin, hoeq⟩
        refine ⟨oldest, ho, homin, ?_, ?_⟩
        · rw [cpm_spec snaps latest (prev :: rest2) hsort]
          simp only [hoeq]
        · rw [cpm_spec snaps latest (prev :: rest2) hsort]
          simp only [hoeq]

/-- Concrete series for the C5 witness: three snapshots on distinct dates. -/
def c5Series : List DailySnapshot :=
  [⟨"a", "p1", "2024-01-01", [], 1000, 0, 0⟩,
   ⟨"b", "p1", "2024-01-05", [], 1050, 0, 0⟩,
   ⟨"c", "p1", "2024-02-15", [], 1100, 0, 0⟩]

/-- Witness for C5 at `c5Series`. -/
theorem claim_C5_change_lookbacks_witness :
    2 ≤ c5Series.length ∧
    (c5Series.map (fun s => s.date)).Nodup ∧
    (∃ latest ∈ c5Series, ∃ prev ∈ c5Series,
      (∀ s ∈ c5Series, strLe s.date latest.date = true) ∧
      prev ≠ latest ∧
      (∀ s ∈ c5Series, s ≠ latest → strLe s.date prev.date = true) ∧
      (calculatePerformanceMetrics c5Series).change24h
        = (calculateVariation latest.totalUsd prev.totalUsd).amount ∧
      (calculatePerformanceMetrics c5Series).change24hPercent
        = (calculateVariation latest.totalUsd prev.totalUsd).percent ∧
      ((∃ s ∈ c5Series, s ≠ latest ∧ strLe s.date (jsDateSubDays latest.date 7) = true) →
        ∃ r ∈ c5Series, r ≠ latest ∧ strLe r.date (jsDateSubDays latest.date 7) = true ∧
          (∀ s ∈ c5Series, s ≠ latest → strLe s.date (jsDateSubDays latest.date 7) = true →
            strLe s.date r.date = true) ∧
          (calculatePerformanceMetrics c5Series).change7d
            = (calculateVariation latest.totalUsd r.totalUsd).amount ∧
          (calculatePerformanceMetrics c5Series).change7dPercent
            = (calculateVariation latest.totalUsd r.totalUsd).percent) ∧
      ((¬ ∃ s ∈ c5Series, s ≠ latest ∧ strLe s.date (jsDateSubDays latest.date 7) = true) →
        ∃ oldest ∈ c5Series, (∀ s ∈ c5Series, strLe oldest.date s.date = true) ∧
          (calculatePerformanceMetrics c5Series).change7d
            = (calculateVariation latest.totalUsd oldest.totalUsd).amount ∧
          (calculatePerformanceMetrics c5Series).change7dPercent
            = (calculateVariation latest.totalUsd oldest.totalUsd).percent) ∧
      ((∃ s ∈ c5Series, s ≠ latest ∧ strLe s.date (jsDateSubDays latest.date 30) = true) →
        ∃ r ∈ c5Series, r ≠ latest ∧ strLe r.date (jsDateSubDays latest.date 30) = true ∧
          (∀ s ∈ c5Series, s ≠ latest → strLe s.date (jsDateSubDays latest.date 30) = true →
            strLe s.date r.date = true) ∧
          (calculatePerformanceMetrics c5Series).change30d
            = (calculateVariation latest.totalUsd r.totalUsd).amount ∧
          (calculatePerformanceMetrics c5Series).change30dPercent
            = (calculateVariation latest.totalUsd r.totalUsd).percent) ∧
      ((¬ ∃ s ∈ c5Series, s ≠ latest ∧ strLe s.date (jsDateSubDays latest.date 30) = true) →
        ∃ oldest ∈ c5Series, (∀ s ∈ c5Series, strLe oldest.date s.date = true) ∧
          (calculatePerformanceMetrics c5Series).change30d
            = (calculateVariation latest.totalUsd oldest.totalUsd).amount ∧
          (calculatePerformanceMetrics c5Series).change30dPercent
            = (calculateVariation latest.totalUsd oldest.totalUsd).percent)) :=
  ⟨by decide, by decide, claim_C5_change_lookbacks c5Series (by decide) (by decide)⟩

/-! ## Import parsing and validation (`utils/importExport`-style helpers of
the repository, kept alongside the CSV generators) -/

/-- JS `String.trim` on a character list (both ends). -/
def jsTrimChars (l : List Char) : List Char :=
  ((l.dropWhile Char.isWhitespace).reverse.dropWhile Char.isWhitespace).reverse

/-- JS `content.split('\n')` on a character list (empty pieces kept). -/
def splitOnChar (c : Char) (l : List Char) : List (List Char) :=
  l.foldr
    (fun x acc =>
      if x = c then [] :: acc
      else match acc with
        | [] => [[x]]
        | h :: t => (x :: h) :: t)
    [[]]

/-- Does `l` contain `n` as a contiguous run? (JS `String.includes`.) -/
def charsContain : List Char → List Char → Bool
  | [], n => charsStartWith [] n
  | c :: t, n => charsStartWith (c :: t) n || charsContain t n

/-- JS `h.toLowerCase().includes(needle)`. -/
def containsLower (h needle : String) : Bool :=
  charsContain (h.toList.map Char.toLower) needle.toList

/-- `parseCSVLine` of the import helpers: split one line on unquoted `,` or
`;`, toggling on `"`, trimming every piece. -/
def parseCSVLine (line : String) : List String :=
  let fin := line.toList.foldl
    (fun (st : List String × List Char × Bool) c =>
      let (result, current, inQuotes) := st
      if c = '"' then (result, current, !inQuotes)
      else if (c = ',' ∨ c = ';') ∧ inQuotes = false then
        (result ++ [String.mk (jsTrimChars current)], [], inQuotes)
      else (result, current ++ [c], inQuotes))
    ([], [], false)
  fin.1 ++ [String.mk (jsTrimChars fin.2.1)]

/-- The `new Date(value)` fallback of `parseDate`.  The JS engine accepts
further implementation-dependent formats there (e.g. `"March 5, 2024"`);
every input the claims exercise (an empty or garbled date cell) yields an
Invalid Date in JS, so the fallback is modelled as always rejecting. -/
def jsDateParse (_ : String) : Option String := none

/-- `parseDate` of the import helpers: accept `YYYY-MM-DD` as-is, reorder
`DD/MM/YYYY` and `DD-MM-YYYY` to ISO, otherwise try the `Date` fallback. -/
def parseDate (value : String) : Option String :=
  match value.toList with
  | [y1, y2, y3, y4, '-', m1, m2, '-', d1, d2] =>
    if allDigits [y1, y2, y3, y4] && allDigits [m1, m2] && allDigits [d1, d2] then
      some value
    else jsDateParse value
  | [d1, d2, '/', m1, m2, '/', y1, y2, y3, y4] =>
    if allDigits [d1, d2] && allDigits [m1, m2] && allDigits [y1, y2, y3, y4] then
      some (String.mk [y1, y2, y3, y4, '-', m1, m2, '-', d1, d2])
    else jsDateParse value
  | [d1, d2, '-', m1, m2, '-', y1, y2, y3, y4] =>
    if allDigits [d1, d2] && allDigits [m1, m2] && allDigits [y1, y2, y3, y4] then
      some (String.mk [y1, y2, y3, y4, '-', m1, m2, '-', d1, d2])
    else jsDateParse value
  | _ => jsDateParse value

/-- Longest digit run at the head of a character list. -/
def takeDigits : List Char → List Char × List Char
  | [] => ([], [])
  | c :: cs =>
    if c.isDigit then
      let (ds, rest) := takeDigits cs
      (c :: ds, rest)
    else ([], c :: cs)

/-- Exponent part of a JS float literal (`e`/`E` already consumed); a
malformed exponent is ignored, as `parseFloat` does. -/
def parseFloatExp (l : List Char) : Int :=
  let (sign, l1) : Int × List Char := match l with
    | '-' :: rest => (-1, rest)
    | '+' :: rest => (1, rest)
    | _ => (1, l)
  let (ds, _) := takeDigits l1
  if ds.isEmpty then 0 else sign * (digitsToNat ds : Int)

/-- JS `parseFloat` on an already-cleaned character list: an optional sign,
digits with an optional fraction, an optional exponent, trailing garbage
ignored; `none` models `NaN` (no leading numeric part).  (`parseFloat` also
accepts a literal `Infinity`, which no input of this code base produces; it
is modelled as `NaN`.) -/
def jsParseFloat (l : List Char) : Option ℚ :=
  let (neg, l1) : Bool × List Char := match l with
    | '-' :: rest => (true, rest)
    | '+' :: rest => (false, rest)
    | _ => (false, l)
  let (intDs, l2) := takeDigits l1
  let (fracDs, l3) : List Char × List Char := match l2 with
    | '.' :: rest => takeDigits rest
    | _ => ([], l2)
  if intDs.isEmpty && fracDs.isEmpty then none
  else
    let mant : ℚ :=
      if fracDs.isEmpty then (digitsToNat intDs : ℚ)
      else (digitsToNat intDs : ℚ) + (digitsToNat fracDs : ℚ) / (10 : ℚ) ^ fracDs.length
    let e : Int := match l3 with
      | 'e' :: rest => parseFloatExp rest
      | 'E' :: rest => parseFloatExp rest
      | _ => 0
    let v : ℚ :=
      if e = 0 then mant
      else if 0 < e then mant * (10 : ℚ) ^ e.toNat
      else mant / (10 : ℚ) ^ (-e).toNat
    some (if neg then -v else v)

/-- The cleaning pipeline of `parseNumber`: strip currency symbols, strip
whitespace, then map `,` to `.`. -/
def cleanNumberChars (s : String) : List Char :=
  (s.toList.filter
    (fun c => !(c = '$' ∨ c = '€' ∨ c = '£' ∨ c = '¥') && !c.isWhitespace)).map
    (fun c => if c = ',' then '.' else c)

/-- `parseNumber` of the import helpers: clean, `parseFloat`, and coerce a
`NaN` to `0`. -/
def parseNumber (value : String) : ℚ :=
  match jsParseFloat (cleanNumberChars value) with
  | some v => v
  | none => 0

/-- `ImportedSnapshot` of `types.ts`; the JS object
`{ [walletName]: number }` is modelled as its insertion-ordered key/value
list. -/
structure ImportedSnapshot where
  date : String
  wallets : List (String × ℚ)
  total : Option ℚ
deriving DecidableEq, Repr

/-- JS object assignment `wallets[walletName] = value`: overwrite the value
under an existing key in place, append a new key at the end. -/
def objSet (m : List (String × ℚ)) (k : String) (v : ℚ) : List (String × ℚ) :=
  if m.any (fun p => p.1 = k) then
    m.map (fun p => if p.1 = k then (k, v) else p)
  else m ++ [(k, v)]

/-- One wallet-header step of the row loop of `parseCSV`
(`const idx = headers.indexOf(walletName); if (idx !== -1 && values[idx])`):
record the parsed cell value under the wallet name and add it to the running
total. -/
def rowStep (headers values : List String) (acc : List (String × ℚ) × ℚ)
    (walletName : String) : List (String × ℚ) × ℚ :=
  match headers.findIdx? (fun h => decide (h = walletName)) with
  | none => acc
  | some idx =>
    if values.getD idx "" ≠ "" then
      (objSet acc.1 walletName (parseNumber (values.getD idx "")),
        acc.2 + parseNumber (values.getD idx ""))
    else acc

/-- The body of the row loop of `parseCSV`: skip short lines and lines with
an unparseable date, otherwise collect one value per wallet header whose
cell is present (truthy). -/
def processRow (headers : List String) (dateIndex : Nat) (walletHeaders : List String)
    (line : String) : Option ImportedSnapshot :=
  let values := parseCSVLine line
  if values.length < 2 then none
  else
    match parseDate (values.getD dateIndex "") with
    | none => none
    | some date =>
      let ws := walletHeaders.foldl (rowStep headers values) ([], 0)
      some ⟨date, ws.1, some ws.2⟩

/-- `parseCSV` of the import helpers; `none` models the thrown
`CSV must have a "date" column` error. -/
def parseCSV (content : String) : Option (List ImportedSnapshot) :=
  let lines := (splitOnChar '\n' (jsTrimChars content.toList)).map String.mk
  if lines.length < 2 then some []
  else
    let headers := parseCSVLine (lines.getD 0 "")
    match headers.findIdx? (fun h => containsLower h "date") with
    | none => none
    | some dateIndex =>
      let walletHeaders := (headers.enum.filter
        (fun p => decide (p.1 ≠ dateIndex) && !containsLower p.2 "total")).map
        (fun p => p.2)
      some ((lines.drop 1).filterMap (processRow headers dateIndex walletHeaders))

/-- The row-indexed error messages of `validateImportedSnapshots`. -/
def rowMsg (index : Nat) (msg : String) : String :=
  String.mk ("Row ".toList ++ natToPadded 1 (index + 1) ++ ':' :: ' ' :: msg.toList)

/-- `validateImportedSnapshots`: partition the rows into the valid ones
(non-empty date and at least one wallet) and row-indexed error messages. -/
def validateImportedSnapshots (snapshots : List ImportedSnapshot) :
    List ImportedSnapshot × List String :=
  snapshots.enum.foldl
    (fun (acc : List ImportedSnapshot × List String) p =>
      if p.2.date = "" then (acc.1, acc.2 ++ [rowMsg p.1 "Invalid date"])
      else if p.2.wallets.length = 0 then (acc.1, acc.2 ++ [rowMsg p.1 "No wallet data"])
      else (acc.1 ++ [p.2], acc.2))
    ([], [])

example : parseCSVLine "2024-01-01, 1000 ;\"a,b\"" = ["2024-01-01", "1000", "a,b"] := by decide
example : parseDate "2024-01-15" = some "2024-01-15" := by decide
example : parseDate "15/01/2024" = some "2024-01-15" := by decide
example : parseDate "15-01-2024" = some "2024-01-15" := by decide
example : parseDate "" = none := by decide
example : parseDate "not-a-date" = none := by decide
example : jsParseFloat "abc".toList = none := by decide
example : parseNumber "$1000" = (1000 : ℚ) := by decide
example : parseNumber "abc" = 0 := by decide
example : rowMsg 2 "Invalid date" = "Row 3: Invalid date" := by decide

/-! ## Claim C9 — row validation partition and the dropped-row scenario -/

theorem validate_go (l : List (Nat × ImportedSnapshot)) :
    ∀ acc : List ImportedSnapshot × List String,
      l.foldl
        (fun (acc : List ImportedSnapshot × List String) p =>
          if p.2.date = "" then (acc.1, acc.2 ++ [rowMsg p.1 "Invalid date"])
          else if p.2.wallets.length = 0 then
            (acc.1, acc.2 ++ [rowMsg p.1 "No wallet data"])
          else (acc.1 ++ [p.2], acc.2)) acc =
      (acc.1 ++ (l.filter
          (fun p => !decide (p.2.date = "") && !decide (p.2.wallets.length = 0))).map
          (fun p => p.2),
       acc.2 ++ l.filterMap (fun p =>
         if p.2.date = "" then some (rowMsg p.1 "Invalid date")
         else if p.2.wallets.length = 0 then some (rowMsg p.1 "No wallet data")
         else none)) := by
  induction l with
  | nil => intro acc; simp
  | cons p t ih =>
    intro acc
    by_cases h1 : p.2.date = ""
    · simp only [List.foldl_cons, if_pos h1, List.filter_cons, List.filterMap_cons]
      rw [ih]
      simp [h1, List.append_assoc]
    · by_cases h2 : p.2.wallets.length = 0
      · simp only [List.foldl_cons, if_neg h1, if_pos h2, List.filter_cons,
          List.filterMap_cons]
        rw [ih]
        simp [h1, h2, List.append_assoc]
      · simp only [List.foldl_cons, if_neg h1, if_neg h2, List.filter_cons,
          List.filterMap_cons]
        rw [ih]
        simp [h1, h2, List.append_assoc]

/-- The 5-row import of the C9 scenario: row 3 has an unparseable date. -/
def c9Csv : String :=
  "Date,Main,Total\n2024-01-01,1000,1000\n2024-01-02,1100,1100\n,1200,1200\n2024-01-04,1300,1300\n2024-01-05,1400,1400"

/-- C9 counterexample: importing 5 rows where row 3 has an unparseable date
yields `valid.length == 4` but `errors == []`, not
`["Row 3: Invalid date"]` — `parseCSV` silently drops the bad row before
validation ever sees it. -/
theorem claim_C9_counterexample :
    (splitOnChar '\n' (jsTrimChars c9Csv.toList)).length = 6 ∧
    (parseCSV c9Csv).map (fun rows => rows.length) = some 4 ∧
    (parseCSV c9Csv).map (fun rows => (validateImportedSnapshots rows).1.length)
      = some 4 ∧
    (parseCSV c9Csv).map (fun rows => (validateImportedSnapshots rows).2)
      = some [] ∧
    (some ([] : List String) ≠ some ["Row 3: Invalid date"]) := by
  refine ⟨by decide, by decide, by decide, by decide, by decide⟩

/-- C9 amended: `validateImportedSnapshots` itself never throws and returns
an exact partition — a row is kept in `valid` precisely when its date is a
non-empty canonical string and at least one wallet value is present, and
every other row contributes exactly one row-indexed error message; but rows
whose date fails to parse are silently discarded by `parseCSV` before
validation, so importing 5 CSV rows where row 3 has an unparseable date
yields `valid.length == 4` and `errors == []` (no "Row 3" error). -/
theorem claim_C9_amended (snapshots : List ImportedSnapshot) :
    (validateImportedSnapshots snapshots).1 =
      snapshots.filter
        (fun s => !decide (s.date = "") && !decide (s.wallets.length = 0)) ∧
    (validateImportedSnapshots snapshots).2 =
      snapshots.enum.filterMap (fun p =>
        if p.2.date = "" then some (rowMsg p.1 "Invalid date")
        else if p.2.wallets.length = 0 then some (rowMsg p.1 "No wallet data")
        else none) ∧
    (parseCSV c9Csv).map (fun rows => rows.map (fun r => r.date)) =
      some ["2024-01-01", "2024-01-02", "2024-01-04", "2024-01-05"] ∧
    (parseCSV c9Csv).map
        (fun rows => ((validateImportedSnapshots rows).1.length,
          (validateImportedSnapshots rows).2)) = some (4, []) := by
  refine ⟨?_, ?_, by decide, by decide⟩
  · unfold validateImportedSnapshots
    rw [validate_go]
    simp only [List.nil_append]
    have : (snapshots.enum.filter
        (fun p => !decide (p.2.date = "") && !decide (p.2.wallets.length = 0))).map
        (fun p : Nat × ImportedSnapshot => p.2) =
        (snapshots.enum.map (fun p : Nat × ImportedSnapshot => p.2)).filter
          (fun s => !decide (s.date = "") && !decide (s.wallets.length = 0)) := by
      rw [List.filter_map]
      rfl
    rw [this, List.enum_map_snd]
  · unfold validateImportedSnapshots
    rw [validate_go]
    simp only [List.nil_append]

/-! ## Claim C10 — malformed amounts never reject a row -/

theorem find?_append_some {α : Type} (p : α → Bool) {l₁ : List α} (l₂ : List α) {x : α}
    (h : l₁.find? p = some x) : (l₁ ++ l₂).find? p = some x := by
  induction l₁ with
  | nil => exact absurd h (by simp)
  | cons a t ih =>
    rw [List.cons_append]
    cases hpa : p a with
    | true =>
      rw [List.find?_cons_of_pos _ hpa] at h ⊢
      exact h
    | false =>
      rw [List.find?_cons_of_neg _ (by simp [hpa])] at h ⊢
      exact ih h

theorem objSet_find_self (m : List (String × ℚ)) (k : String) (v : ℚ) :
    (objSet m k v).find? (fun p => decide (p.1 = k)) = some (k, v) := by
  unfold objSet
  split
  · rename_i hany
    induction m with
    | nil => simp at hany
    | cons a t ih =>
      by_cases hk : a.1 = k
      · simp only [List.map_cons, if_pos hk]
        exact List.find?_cons_of_pos _ (by simp)
      · simp only [List.map_cons, if_neg hk]
        rw [List.find?_cons_of_neg _ (by simp [hk])]
        apply ih
        simp only [List.any_cons] at hany
        simpa [hk] using hany
  · rename_i hany
    have hnone : m.find? (fun p => decide (p.1 = k)) = none := by
      rw [List.find?_eq_none]
      intro p hp
      simp only [decide_eq_true_eq]
      intro hpk
      exact hany (List.any_eq_true.mpr ⟨p, hp, by simp [hpk]⟩)
    rw [find?_append_of_none _ _ hnone]
    exact List.find?_cons_of_pos _ (by simp)

theorem find?_map_replace (k k' : String) (v : ℚ) (hne : k ≠ k') :
    ∀ t : List (String × ℚ),
      (t.map (fun p => if p.1 = k then (k, v) else p)).find?
          (fun p => decide (p.1 = k')) =
        t.find? (fun p => decide (p.1 = k')) := by
  intro t
  induction t with
  | nil => rfl
  | cons a t ih =>
    by_cases hk : a.1 = k
    · simp only [List.map_cons, if_pos hk]
      rw [List.find?_cons_of_neg _ (by simp [hne]),
        List.find?_cons_of_neg _ (by simp [hk, hne])]
      exact ih
    · simp only [List.map_cons, if_neg hk]
      cases hpa : decide (a.1 = k') with
      | true =>
        exact (@List.find?_cons_of_pos _ (fun p => decide (p.1 = k')) a _ hpa).trans
          (@List.find?_cons_of_pos _ (fun p => decide (p.1 = k')) a _ hpa).symm
      | false =>
        rw [List.find?_cons_of_neg _ (by simp at hpa ⊢; exact hpa),
          List.find?_cons_of_neg _ (by simp at hpa ⊢; exact hpa)]
        exact ih

theorem objSet_find_other (m : List (String × ℚ)) (k : String) (v : ℚ) (k' : String)
    (hne : k ≠ k') :
    (objSet m k v).find? (fun p => decide (p.1 = k')) =
      m.find? (fun p => decide (p.1 = k')) := by
  unfold objSet
  split
  · exact find?_map_replace k k' v hne m
  · cases hm : m.find? (fun p => decide (p.1 = k')) with
    | some x => exact find?_append_some _ _ hm
    | none =>
      rw [find?_append_of_none _ _ hm]
      rw [List.find?_cons_of_neg _ (by simp [hne]), List.find?_nil]

theorem rowFold_preserves_zero (headers values : List String) (walletName : String)
    (idx : Nat)
    (hidx : headers.findIdx? (fun h => decide (h = walletName)) = some idx)
    (hzero : parseNumber (values.getD idx "") = 0) :
    ∀ (l : List String) (acc : List (String × ℚ) × ℚ),
      acc.1.find? (fun p => decide (p.1 = walletName)) = some (walletName, 0) →
      (l.foldl (rowStep headers values) acc).1.find?
        (fun p => decide (p.1 = walletName)) = some (walletName, 0) := by
  intro l
  induction l with
  | nil => intro acc h; exact h
  | cons w t ih =>
    intro acc h
    rw [List.foldl_cons]
    apply ih
    unfold rowStep
    cases hfw : headers.findIdx? (fun h2 => decide (h2 = w)) with
    | none => exact h
    | some j =>
      dsimp only
      by_cases hcell : values.getD j "" ≠ ""
      · rw [if_pos hcell]
        by_cases hwk : w = walletName
        · subst hwk
          have hj : j = idx := by
            rw [hfw] at hidx
            exact Option.some.inj hidx
          subst hj
          rw [hzero]
          exact objSet_find_self acc.1 w 0
        · rw [objSet_find_other acc.1 w _ walletName hwk]
          exact h
      · rw [if_neg hcell]
        exact h

theorem parseDate_some_len {v d : String} (h : parseDate v = some d) :
    d.toList.length = 10 := by
  unfold parseDate at h
  split at h
  · rename_i heq
    split at h
    · cases h
      rw [heq]
      rfl
    · simp [jsDateParse] at h
  · rename_i heq
    split at h
    · cases h
      rfl
    · simp [jsDateParse] at h
  · rename_i heq
    split at h
    · cases h
      rfl
    · simp [jsDateParse] at h
  · simp [jsDateParse] at h

theorem parseDate_some_ne_empty {v d : String} (h : parseDate v = some d) : d ≠ "" := by
  intro h0
  have := parseDate_some_len h
  rw [h0] at this
  simp at this

/-- A CSV whose only row has a malformed amount in the `Alt` column. -/
def c10Csv : String := "Date,Main,Alt\n2024-01-01,1000,abc"

/-- C10: a malformed amount never rejects an import row — for every CSV row
whose date parses, a non-empty wallet cell whose cleaned text does not parse
as a number is coerced by `parseNumber` to `0`, the wallet still counts as
present (recorded at value `0`), and the row validates with no error entry;
end to end, importing `c10Csv` yields one valid row with `Alt` recorded at
`0` and an empty error list. -/
theorem claim_C10_malformed_amount
    (headers walletHeaders : List String) (dateIndex : Nat) (line : String)
    (d walletName : String) (idx : Nat)
    (hlen : ¬ (parseCSVLine line).length < 2)
    (hdate : parseDate ((parseCSVLine line).getD dateIndex "") = some d)
    (hmem : walletName ∈ walletHeaders)
    (hidx : headers.findIdx? (fun h => decide (h = walletName)) = some idx)
    (hcell : (parseCSVLine line).getD idx "" ≠ "")
    (hmal : jsParseFloat (cleanNumberChars ((parseCSVLine line).getD idx "")) = none) :
    parseNumber ((parseCSVLine line).getD idx "") = 0 ∧
    (∃ snap, processRow headers dateIndex walletHeaders line = some snap ∧
      snap.date = d ∧
      snap.wallets.find? (fun p => decide (p.1 = walletName)) = some (walletName, 0) ∧
      (validateImportedSnapshots [snap]).1 = [snap] ∧
      (validateImportedSnapshots [snap]).2 = []) ∧
    (parseCSV c10Csv).map (fun rows => rows.map (fun r => (r.date, r.wallets))) =
      some [("2024-01-01", [("Main", (1000 : ℚ)), ("Alt", 0)])] ∧
    (parseCSV c10Csv).map
      (fun rows => ((validateImportedSnapshots rows).1.length,
        (validateImportedSnapshots rows).2)) = some (1, []) := by
  have hzero : parseNumber ((parseCSVLine line).getD idx "") = 0 := by
    unfold parseNumber
    rw [hmal]
  refine ⟨hzero, ?_, by decide, by decide⟩
  have hsnap : processRow headers dateIndex walletHeaders line =
      some ⟨d, (walletHeaders.foldl (rowStep headers (parseCSVLine line)) ([], 0)).1,
        some (walletHeaders.foldl (rowStep headers (parseCSVLine line)) ([], 0)).2⟩ := by
    simp only [processRow, if_neg hlen, hdate]
  have hfindw : (walletHeaders.foldl (rowStep headers (parseCSVLine line)) ([], 0)).1.find?
      (fun p => decide (p.1 = walletName)) = some (walletName, 0) := by
    obtain ⟨l₁, l₂, rfl⟩ := List.append_of_mem hmem
    rw [List.foldl_append, List.foldl_cons]
    apply rowFold_preserves_zero headers (parseCSVLine line) walletName idx hidx hzero l₂
    unfold rowStep
    rw [hidx]
    dsimp only
    rw [if_pos hcell, hzero]
    exact objSet_find_self _ walletName 0
  have hdne : d ≠ "" := parseDate_some_ne_empty hdate
  have hwnil : ((walletHeaders.foldl (rowStep headers (parseCSVLine line)) ([], 0)).1) ≠ [] := by
    intro h0
    have hmem0 := List.mem_of_find?_eq_some hfindw
    rw [h0] at hmem0
    exact List.not_mem_nil _ hmem0
  have hwne : ((walletHeaders.foldl (rowStep headers (parseCSVLine line)) ([], 0)).1).length
      ≠ 0 := fun h0 => hwnil (List.length_eq_zero.mp h0)
  refine ⟨_, hsnap, rfl, hfindw, ?_, ?_⟩
  · unfold validateImportedSnapshots
    rw [show (([(⟨d, (walletHeaders.foldl (rowStep headers (parseCSVLine line)) ([], 0)).1,
        some (walletHeaders.foldl (rowStep headers (parseCSVLine line)) ([], 0)).2⟩ :
        ImportedSnapshot)]).enum) =
      [(0, (⟨d, (walletHeaders.foldl (rowStep headers (parseCSVLine line)) ([], 0)).1,
        some (walletHeaders.foldl (rowStep headers (parseCSVLine line)) ([], 0)).2⟩ :
        ImportedSnapshot))] from rfl]
    rw [validate_go]
    simp [hdne, hwne, hwnil]
  · unfold validateImportedSnapshots
    rw [show (([(⟨d, (walletHeaders.foldl (rowStep headers (parseCSVLine line)) ([], 0)).1,
        some (walletHeaders.foldl (rowStep headers (parseCSVLine line)) ([], 0)).2⟩ :
        ImportedSnapshot)]).enum) =
      [(0, (⟨d, (walletHeaders.foldl (rowStep headers (parseCSVLine line)) ([], 0)).1,
        some (walletHeaders.foldl (rowStep headers (parseCSVLine line)) ([], 0)).2⟩ :
        ImportedSnapshot))] from rfl]
    rw [validate_go]
    simp [hdne, hwne, hwnil]

/-- Witness for C10: the row `"2024-01-01,1000,abc"` under headers
`Date, Main, Alt` — the malformed `Alt` cell is recorded at value `0` and
the row validates with no error. -/
theorem claim_C10_malformed_amount_witness :
    (¬ (parseCSVLine "2024-01-01,1000,abc").length < 2) ∧
    parseDate ((parseCSVLine "2024-01-01,1000,abc").getD 0 "") = some "2024-01-01" ∧
    "Alt" ∈ (["Main", "Alt"] : List String) ∧
    (["Date", "Main", "Alt"] : List String).findIdx? (fun h => decide (h = "Alt"))
      = some 2 ∧
    (parseCSVLine "2024-01-01,1000,abc").getD 2 "" ≠ "" ∧
    jsParseFloat (cleanNumberChars ((parseCSVLine "2024-01-01,1000,abc").getD 2 ""))
      = none ∧
    (parseNumber ((parseCSVLine "2024-01-01,1000,abc").getD 2 "") = 0 ∧
      (∃ snap, processRow ["Date", "Main", "Alt"] 0 ["Main", "Alt"]
          "2024-01-01,1000,abc" = some snap ∧
        snap.date = "2024-01-01" ∧
        snap.wallets.find? (fun p => decide (p.1 = "Alt")) = some ("Alt", 0) ∧
        (validateImportedSnapshots [snap]).1 = [snap] ∧
        (validateImportedSnapshots [snap]).2 = []) ∧
      (parseCSV c10Csv).map (fun rows => rows.map (fun r => (r.date, r.wallets))) =
        some [("2024-01-01", [("Main", (1000 : ℚ)), ("Alt", 0)])] ∧
      (parseCSV c10Csv).map
        (fun rows => ((validateImportedSnapshots rows).1.length,
          (validateImportedSnapshots rows).2)) = some (1, [])) :=
  ⟨by decide, by decide, by decide, by decide, by decide, by decide,
    claim_C10_malformed_amount ["Date", "Main", "Alt"] ["Main", "Alt"] 0
      "2024-01-01,1000,abc" "2024-01-01" "Alt" 2
      (by decide) (by decide) (by decide) (by decide) (by decide) (by decide)⟩
